import Mathlib

/-!
# Verification of the fxbg-event-feeds ingestion pipeline

A shallow embedding, in Lean 4, of the core of the `fxbg-event-feeds`
repository (`src/utils.py`, `src/sources.py`, `src/main.py`), together with
theorems settling the behavioural claims about it.

Modelling conventions:

* Python `str` is modelled by `String` (operated on through its `List Char`
  data); `bytes` by `List Nat`.
* Python `datetime.datetime` is modelled by the structure `PyDateTime`
  (civil fields plus an optional resolved UTC offset in minutes).
* Calls into external libraries (`dateutil.parser`, BeautifulSoup,
  `requests`, the system clock, `random`) are modelled as oracle parameters:
  the embedded functions are parametric in the answers those libraries give,
  and theorems quantify over (or hypothesise) the oracle answers.
* Effects of the HTTP client (`time.sleep`, the politeness delay, writes of
  the persisted cache) are made explicit in the returned `ReqResult` record.
-/

namespace FXBG

/-! ## Python string primitives -/

/-- The characters stripped by Python's default `str.strip()` and matched by
`\s` in `re` (ASCII range). -/
def isPyWS (c : Char) : Bool :=
  c = ' ' || c = '\t' || c = '\n' || c = '\r' || c = '\x0b' || c = '\x0c'

/-- Remove leading and trailing characters satisfying `p` (Python
`str.strip`). -/
def trimBothL (p : Char → Bool) (l : List Char) : List Char :=
  ((l.dropWhile p).reverse.dropWhile p).reverse

/-- Python `s.strip()` (default whitespace). -/
def pyStrip (s : String) : String := ⟨trimBothL isPyWS s.data⟩

/-- Python `s.strip(chars)` for an explicit character set. -/
def pyStripChars (s : String) (cs : List Char) : String :=
  ⟨trimBothL (fun c => cs.contains c) s.data⟩

/-- ASCII lower-casing of a character (model of Python `str.lower` on the
ASCII inputs this pipeline manipulates). -/
def pyLowerChar (c : Char) : Char :=
  if 'A' ≤ c ∧ c ≤ 'Z' then Char.ofNat (c.toNat + 32) else c

/-- Python `s.lower()`. -/
def pyLower (s : String) : String := ⟨s.data.map pyLowerChar⟩

/-- Does `hay` start with `needle`? -/
def isPrefixB : List Char → List Char → Bool
  | [], _ => true
  | _ :: _, [] => false
  | a :: as, b :: bs => a = b && isPrefixB as bs

/-- Python substring containment `needle in hay` (on char lists). -/
def containsSubL (needle : List Char) : List Char → Bool
  | [] => isPrefixB needle []
  | c :: cs => isPrefixB needle (c :: cs) || containsSubL needle cs

/-- Python substring containment `needle in hay`. -/
def containsSub (needle hay : String) : Bool := containsSubL needle.data hay.data

/-- Python `hay.endswith suffix`. -/
def endsWith (suffix hay : String) : Bool :=
  isPrefixB suffix.data.reverse hay.data.reverse

/-- Python slicing `s[:n]`. -/
def strTake (s : String) (n : Nat) : String := ⟨s.data.take n⟩

/-! ## `utils.categorize_text` (src/utils.py, lines 40-55) -/

/-- `WEEKDAY_WORDS` from src/utils.py line 5. -/
def WEEKDAY_WORDS : List String :=
  ["monday", "tuesday", "wednesday", "thursday", "friday", "saturday", "sunday"]

/-- Python `rules.get(k, [])` on the keyword-bucket dictionary. -/
def bucketGet (rules : List (String × List String)) (k : String) : List String :=
  (rules.lookup k).getD []

/-- The text scanned by `categorize_text`: `f"{title or ''} {desc or ''}".lower()`. -/
def categorizeInput (title desc : Option String) : String :=
  pyLower ((title.getD "") ++ " " ++ (desc.getD ""))

/-- The weekday+recurrence heuristic of src/utils.py line 53:
`any(w in text for w in WEEKDAY_WORDS) and ("every" in text or "weekly" in text)`. -/
def weekdayRecurrenceHeuristic (text : String) : Bool :=
  (WEEKDAY_WORDS.any (fun w => containsSub w text)) &&
    (containsSub "every" text || containsSub "weekly" text)

/-- `categorize_text(title, desc, rules)` from src/utils.py lines 40-55:
ordered keyword buckets (`recurring`, then `family`, then `adult`), then the
weekday+`every`/`weekly` heuristic, then the `adult` catch-all. -/
def categorize_text (title desc : Option String)
    (rules : List (String × List String)) : String :=
  let text := categorizeInput title desc
  if (bucketGet rules "recurring").any (fun k => containsSub k text) then "recurring"
  else if (bucketGet rules "family").any (fun k => containsSub k text) then "family"
  else if (bucketGet rules "adult").any (fun k => containsSub k text) then "adult"
  else if weekdayRecurrenceHeuristic text then "recurring"
  else "adult"

/-! ### Claim C9: the weekday+recurrence heuristic vs. the keyword buckets

The heuristic is checked *after* the three keyword buckets, so it is a
fallback, not an override: a text that matches a `family` (or `adult`)
keyword is classified into that bucket even when it contains a weekday name
together with "every"/"weekly". -/

/-- C9 counterexample: with `rules = {family: ["kids"]}`, the text
"kids every monday" contains a weekday name and the recurrence word "every",
yet `categorize_text` returns "family", not "recurring". -/
theorem C9_heuristic_not_override_counterexample :
    categorize_text (some "kids every monday") none [("family", ["kids"])] = "family" ∧
    weekdayRecurrenceHeuristic (categorizeInput (some "kids every monday") none) = true ∧
    ("family" : String) ≠ "recurring" := by
  refine ⟨by decide, by decide, by decide⟩

/-- C9 (amended): the keyword buckets are checked in the fixed order
`recurring`, `family`, `adult`; the weekday+recurrence heuristic classifies a
text as "recurring" only as a fallback, when no bucket keyword matched. -/
theorem C9_categorize_text_order_and_heuristic (title desc : Option String)
    (rules : List (String × List String)) :
    ((bucketGet rules "recurring").any
        (fun k => containsSub k (categorizeInput title desc)) = true →
      categorize_text title desc rules = "recurring") ∧
    ((bucketGet rules "recurring").any
        (fun k => containsSub k (categorizeInput title desc)) = false →
      (bucketGet rules "family").any
        (fun k => containsSub k (categorizeInput title desc)) = true →
      categorize_text title desc rules = "family") ∧
    ((bucketGet rules "recurring").any
        (fun k => containsSub k (categorizeInput title desc)) = false →
      (bucketGet rules "family").any
        (fun k => containsSub k (categorizeInput title desc)) = false →
      (bucketGet rules "adult").any
        (fun k => containsSub k (categorizeInput title desc)) = false →
      weekdayRecurrenceHeuristic (categorizeInput title desc) = true →
      categorize_text title desc rules = "recurring") := by
  refine ⟨fun h1 => ?_, fun h1 h2 => ?_, fun h1 h2 h3 h4 => ?_⟩ <;>
    simp [categorize_text, *]

/-- C9 witness: with `rules = {family: ["kids"]}` and the text
"dance every monday" (weekday + "every", no bucket keyword), the amended
theorem yields "recurring". -/
theorem C9_categorize_text_order_and_heuristic_witness :
    categorize_text (some "dance every monday") none [("family", ["kids"])] = "recurring" :=
  (C9_categorize_text_order_and_heuristic (some "dance every monday") none
      [("family", ["kids"])]).2.2 (by decide) (by decide) (by decide) (by decide)

/-! ## Python `datetime` model

`PyDateTime` models `datetime.datetime`: civil fields plus the UTC offset (in
minutes) that its `tzinfo` resolves to, `none` for a naive datetime.  The
calendar functions follow CPython's `datetime` module (proleptic Gregorian,
`toordinal`). -/

structure PyDateTime where
  year : Nat
  month : Nat
  day : Nat
  hour : Nat
  minute : Nat
  second : Nat
  microsecond : Nat
  off : Option Int
deriving DecidableEq, Repr

/-- Gregorian leap year (CPython `datetime._is_leap`). -/
def isLeap (y : Nat) : Bool := y % 4 = 0 && (y % 100 ≠ 0 || y % 400 = 0)

/-- Days in a month (CPython `datetime._days_in_month`). -/
def daysInMonth (y m : Nat) : Nat :=
  if m = 2 then (if isLeap y then 29 else 28)
  else if m = 4 ∨ m = 6 ∨ m = 9 ∨ m = 11 then 30
  else 31

/-- Days in the year before month `m` (CPython `datetime._days_before_month`). -/
def daysBeforeMonth (y m : Nat) : Nat :=
  let l : Nat := if isLeap y then 1 else 0
  match m with
  | 1 => 0 | 2 => 31 | 3 => 59 + l | 4 => 90 + l | 5 => 120 + l | 6 => 151 + l
  | 7 => 181 + l | 8 => 212 + l | 9 => 243 + l | 10 => 273 + l | 11 => 304 + l
  | _ => 334 + l

/-- Days before January 1st of year `y` (CPython `datetime._days_before_year`). -/
def daysBeforeYear (y : Nat) : Nat :=
  ((y - 1) * 365 + (y - 1) / 4) - (y - 1) / 100 + (y - 1) / 400

/-- CPython `datetime.date.toordinal`: day number in the proleptic Gregorian
calendar, with 0001-01-01 as day 1. -/
def toordinal (y m d : Nat) : Nat := daysBeforeYear y + daysBeforeMonth y m + d

/-- The instant as microseconds from the epoch of `toordinal`, ignoring the
offset (this is how CPython compares naive datetimes). -/
def PyDateTime.civilMicro (dt : PyDateTime) : Nat :=
  (((toordinal dt.year dt.month dt.day * 24 + dt.hour) * 60 + dt.minute) * 60
      + dt.second) * 1000000 + dt.microsecond

/-- The instant as microseconds adjusted by the UTC offset (how CPython
compares aware datetimes); a naive datetime counts as offset 0. -/
def PyDateTime.epochMicro (dt : PyDateTime) : Int :=
  (dt.civilMicro : Int) - (dt.off.getD 0) * 60000000

/-- `a <= b` on datetimes (CPython comparison by instant). -/
def dtLe (a b : PyDateTime) : Prop := a.epochMicro ≤ b.epochMicro

instance (a b : PyDateTime) : Decidable (dtLe a b) := by unfold dtLe; infer_instance

/-- Field ranges accepted by CPython's `datetime` constructor, with offsets
restricted to less than a day as `timezone` requires. -/
def PyDateTime.Valid (dt : PyDateTime) : Prop :=
  1 ≤ dt.year ∧ dt.year ≤ 9999 ∧ 1 ≤ dt.month ∧ dt.month ≤ 12 ∧
    1 ≤ dt.day ∧ dt.day ≤ daysInMonth dt.year dt.month ∧
    dt.hour < 24 ∧ dt.minute < 60 ∧ dt.second < 60 ∧ dt.microsecond < 1000000 ∧
    (dt.off.getD 0).natAbs < 1440

instance (dt : PyDateTime) : Decidable dt.Valid := by
  unfold PyDateTime.Valid; exact inferInstance

/-- The day after a civil date. -/
def nextDay : Nat × Nat × Nat → Nat × Nat × Nat
  | (y, m, d) =>
    if d < daysInMonth y m then (y, m, d + 1)
    else if m < 12 then (y, m + 1, 1)
    else (y + 1, 1, 1)

/-- `n` days after a civil date. -/
def addDays : Nat → Nat × Nat × Nat → Nat × Nat × Nat
  | 0, t => t
  | n + 1, t => addDays n (nextDay t)

/-- `dt + timedelta(hours=n)` (the only timedelta additions the pipeline
performs add whole hours to a datetime). -/
def PyDateTime.addHours (dt : PyDateTime) (n : Nat) : PyDateTime :=
  let t := dt.hour + n
  let ymd := addDays (t / 24) (dt.year, dt.month, dt.day)
  { dt with year := ymd.1, month := ymd.2.1, day := ymd.2.2, hour := t % 24 }

/-- `dt.replace(second=0, microsecond=0)` (main.py line 684). -/
def PyDateTime.truncMinute (dt : PyDateTime) : PyDateTime :=
  { dt with second := 0, microsecond := 0 }

/-- A civil date within calendar range (no year upper bound: adding a day to
9999-12-31 overflows in CPython, which the model does not track). -/
def ValidDate (t : Nat × Nat × Nat) : Prop :=
  1 ≤ t.1 ∧ 1 ≤ t.2.1 ∧ t.2.1 ≤ 12 ∧ 1 ≤ t.2.2 ∧ t.2.2 ≤ daysInMonth t.1 t.2.1

theorem daysInMonth_pos (y m : Nat) : 1 ≤ daysInMonth y m := by
  unfold daysInMonth
  split
  · split <;> omega
  · split <;> omega

theorem daysInMonth_le (y m : Nat) : daysInMonth y m ≤ 31 := by
  unfold daysInMonth
  split
  · split <;> omega
  · split <;> omega

theorem isLeap_iff (y : Nat) :
    isLeap y = true ↔ (y % 4 = 0 ∧ (y % 100 ≠ 0 ∨ y % 400 = 0)) := by
  simp [isLeap]

theorem nextDay_validDate {t : Nat × Nat × Nat} (h : ValidDate t) :
    ValidDate (nextDay t) := by
  obtain ⟨y, m, d⟩ := t
  obtain ⟨hy, hm1, hm2, hd1, hd2⟩ := h
  simp only [ValidDate] at *
  unfold nextDay
  by_cases h1 : d < daysInMonth y m
  · simp only [if_pos h1]
    exact ⟨hy, hm1, hm2, by omega, by omega⟩
  · simp only [if_neg h1]
    by_cases h2 : m < 12
    · simp only [if_pos h2]
      exact ⟨hy, by omega, by omega, by omega, daysInMonth_pos y (m + 1)⟩
    · simp only [if_neg h2]
      exact ⟨by omega, by omega, by omega, by omega, daysInMonth_pos (y + 1) 1⟩

set_option maxHeartbeats 3000000 in
theorem toordinal_nextDay {t : Nat × Nat × Nat} (h : ValidDate t) :
    toordinal (nextDay t).1 (nextDay t).2.1 (nextDay t).2.2
      = toordinal t.1 t.2.1 t.2.2 + 1 := by
  obtain ⟨y, m, d⟩ := t
  obtain ⟨hy, hm1, hm2, hd1, hd2⟩ := h
  simp only at hy hm1 hm2 hd1 hd2
  unfold nextDay
  by_cases h1 : d < daysInMonth y m
  · simp only [if_pos h1, toordinal]
    omega
  · simp only [if_neg h1]
    have hd : d = daysInMonth y m := by omega
    subst hd
    by_cases h2 : m < 12
    · simp only [if_pos h2, toordinal]
      interval_cases m <;>
        (cases hL : isLeap y <;> simp [daysBeforeMonth, daysInMonth, hL])
    · simp only [if_neg h2]
      have hm : m = 12 := by omega
      subst hm
      have hdim : daysInMonth y 12 = 31 := by simp [daysInMonth]
      rw [hdim]
      have hbm1 : daysBeforeMonth (y + 1) 1 = 0 := rfl
      have hbm12 : daysBeforeMonth y 12 = 334 + (if isLeap y then 1 else 0) := rfl
      show daysBeforeYear (y + 1) + daysBeforeMonth (y + 1) 1 + 1
        = daysBeforeYear y + daysBeforeMonth y 12 + 31 + 1
      rw [hbm1, hbm12]
      cases hL : isLeap y with
      | true =>
          have hari := (isLeap_iff y).mp hL
          show daysBeforeYear (y + 1) + 0 + 1
            = daysBeforeYear y + (334 + 1) + 31 + 1
          clear hbm1 hbm12 hdim hd1 hd2 h1 h2 hm1 hm2 hL
          simp only [daysBeforeYear]
          omega
      | false =>
          have hari : ¬ (y % 4 = 0 ∧ (y % 100 ≠ 0 ∨ y % 400 = 0)) := by
            intro hc
            rw [← isLeap_iff y] at hc
            simp [hL] at hc
          show daysBeforeYear (y + 1) + 0 + 1
            = daysBeforeYear y + (334 + 0) + 31 + 1
          clear hbm1 hbm12 hdim hd1 hd2 h1 h2 hm1 hm2 hL
          simp only [daysBeforeYear]
          omega

theorem toordinal_addDays {t : Nat × Nat × Nat} (h : ValidDate t) (n : Nat) :
    toordinal (addDays n t).1 (addDays n t).2.1 (addDays n t).2.2
      = toordinal t.1 t.2.1 t.2.2 + n := by
  induction n generalizing t with
  | zero => simp [addDays]
  | succ k ih =>
      have h1 := toordinal_nextDay h
      have h2 := ih (nextDay_validDate h)
      simp only [addDays]
      omega

/-- Adding hours never moves a valid datetime backwards (in fact it advances
the instant by exactly `n` hours; the offset is unchanged). -/
theorem addHours_civilMicro (dt : PyDateTime) (h : dt.Valid) (n : Nat) :
    (dt.addHours n).civilMicro = dt.civilMicro + n * 3600000000 := by
  obtain ⟨h1, h2, h3, h4, h5, h6, h7, h8, h9, h10, h11⟩ := h
  have hvd : ValidDate (dt.year, dt.month, dt.day) := ⟨h1, h3, h4, h5, h6⟩
  have ho := toordinal_addDays hvd ((dt.hour + n) / 24)
  simp only [PyDateTime.addHours, PyDateTime.civilMicro] at *
  have hmod : (dt.hour + n) % 24 + 24 * ((dt.hour + n) / 24) = dt.hour + n :=
    Nat.mod_add_div _ _
  omega

theorem addHours_le (dt : PyDateTime) (h : dt.Valid) (n : Nat) :
    dtLe dt (dt.addHours n) := by
  have hc := addHours_civilMicro dt h n
  simp only [dtLe, PyDateTime.epochMicro, PyDateTime.addHours] at *
  have : (dt.addHours n).off = dt.off := rfl
  simp only [PyDateTime.addHours] at this
  rw [hc]
  push_cast
  omega

/-! ## `datetime.isoformat()` -/

/-- Decimal digit character. -/
def dchar : Nat → Char
  | 0 => '0' | 1 => '1' | 2 => '2' | 3 => '3' | 4 => '4'
  | 5 => '5' | 6 => '6' | 7 => '7' | 8 => '8' | _ => '9'

/-- Inverse of `dchar` on digits. -/
def dval : Char → Nat
  | '0' => 0 | '1' => 1 | '2' => 2 | '3' => 3 | '4' => 4
  | '5' => 5 | '6' => 6 | '7' => 7 | '8' => 8 | '9' => 9 | _ => 0

theorem dval_dchar {n : Nat} (h : n < 10) : dval (dchar n) = n := by
  interval_cases n <;> rfl

theorem dchar_inj {a b : Nat} (ha : a < 10) (hb : b < 10)
    (h : dchar a = dchar b) : a = b := by
  have := congrArg dval h
  rwa [dval_dchar ha, dval_dchar hb] at this

/-- `%02d`. -/
def pad2 (n : Nat) : List Char := [dchar (n / 10 % 10), dchar (n % 10)]

/-- `%04d` (for values below 10000). -/
def pad4 (n : Nat) : List Char :=
  [dchar (n / 1000 % 10), dchar (n / 100 % 10), dchar (n / 10 % 10), dchar (n % 10)]

/-- `%06d` (for values below 1000000). -/
def pad6 (n : Nat) : List Char :=
  [dchar (n / 100000 % 10), dchar (n / 10000 % 10), dchar (n / 1000 % 10),
    dchar (n / 100 % 10), dchar (n / 10 % 10), dchar (n % 10)]

/-- The `±HH:MM` rendering of a UTC offset of `o` minutes. -/
def offsetChars (o : Int) : List Char :=
  (if o < 0 then '-' else '+') :: (pad2 (o.natAbs / 60) ++ ':' :: pad2 (o.natAbs % 60))

/-- `datetime.isoformat()` (character list): `YYYY-MM-DDTHH:MM:SS`, with
`.ffffff` only when the microsecond field is non-zero and `±HH:MM` only when
the datetime is aware. -/
def isoChars (dt : PyDateTime) : List Char :=
  pad4 dt.year ++ ('-' :: (pad2 dt.month ++ ('-' :: (pad2 dt.day ++
    ('T' :: (pad2 dt.hour ++ (':' :: (pad2 dt.minute ++ (':' :: (pad2 dt.second ++
    ((if dt.microsecond = 0 then [] else '.' :: pad6 dt.microsecond) ++
    (match dt.off with | none => [] | some o => offsetChars o))))))))))))

/-- `datetime.isoformat()`. -/
def isoformat (dt : PyDateTime) : String := ⟨isoChars dt⟩

theorem pad2_inj {a b : Nat} (ha : a < 100) (hb : b < 100)
    (h : pad2 a = pad2 b) : a = b := by
  simp only [pad2, List.cons.injEq, and_true] at h
  obtain ⟨h1, h2⟩ := h
  have e1 := dchar_inj (by omega) (by omega) h1
  have e2 := dchar_inj (by omega) (by omega) h2
  omega

theorem pad4_inj {a b : Nat} (ha : a < 10000) (hb : b < 10000)
    (h : pad4 a = pad4 b) : a = b := by
  simp only [pad4, List.cons.injEq, and_true] at h
  obtain ⟨h1, h2, h3, h4⟩ := h
  have e1 := dchar_inj (by omega) (by omega) h1
  have e2 := dchar_inj (by omega) (by omega) h2
  have e3 := dchar_inj (by omega) (by omega) h3
  have e4 := dchar_inj (by omega) (by omega) h4
  omega

theorem pad6_inj {a b : Nat} (ha : a < 1000000) (hb : b < 1000000)
    (h : pad6 a = pad6 b) : a = b := by
  simp only [pad6, List.cons.injEq, and_true] at h
  obtain ⟨h1, h2, h3, h4, h5, h6⟩ := h
  have e1 := dchar_inj (by omega) (by omega) h1
  have e2 := dchar_inj (by omega) (by omega) h2
  have e3 := dchar_inj (by omega) (by omega) h3
  have e4 := dchar_inj (by omega) (by omega) h4
  have e5 := dchar_inj (by omega) (by omega) h5
  have e6 := dchar_inj (by omega) (by omega) h6
  omega

theorem offsetChars_inj {o1 o2 : Int} (h1 : o1.natAbs < 1440)
    (h2 : o2.natAbs < 1440) (h : offsetChars o1 = offsetChars o2) : o1 = o2 := by
  simp only [offsetChars, List.cons.injEq] at h
  obtain ⟨hsign, hrest⟩ := h
  have hlen : (pad2 (o1.natAbs / 60)).length = (pad2 (o2.natAbs / 60)).length := by
    simp [pad2]
  obtain ⟨hhi, hlo⟩ := List.append_inj hrest hlen
  have e1 := pad2_inj (by omega) (by omega) hhi
  simp only [List.cons.injEq, true_and] at hlo
  have e2 := pad2_inj (by omega) (by omega) hlo
  by_cases s1 : o1 < 0 <;> by_cases s2 : o2 < 0 <;> simp [s1, s2] at hsign <;> omega

/-- The tail of `isoChars` after the seconds field. -/
def isoTail (dt : PyDateTime) : List Char :=
  (if dt.microsecond = 0 then [] else '.' :: pad6 dt.microsecond) ++
    (match dt.off with | none => [] | some o => offsetChars o)

theorem isoTail_inj {d1 d2 : PyDateTime} (v1 : d1.microsecond < 1000000)
    (v2 : d2.microsecond < 1000000) (b1 : (d1.off.getD 0).natAbs < 1440)
    (b2 : (d2.off.getD 0).natAbs < 1440) (h : isoTail d1 = isoTail d2) :
    d1.microsecond = d2.microsecond ∧ d1.off = d2.off := by
  have offCase : ∀ {o1 o2 : Option Int}, (o1.getD 0).natAbs < 1440 →
      (o2.getD 0).natAbs < 1440 →
      (match o1 with | none => ([] : List Char) | some o => offsetChars o) =
        (match o2 with | none => [] | some o => offsetChars o) → o1 = o2 := by
    intro o1 o2 c1 c2 hh
    match o1, o2 with
    | none, none => rfl
    | none, some o => simp [offsetChars] at hh
    | some o, none => simp [offsetChars] at hh
    | some o, some o' =>
        simp only [Option.getD_some] at c1 c2
        exact congrArg some (offsetChars_inj c1 c2 hh)
  unfold isoTail at h
  by_cases hu1 : d1.microsecond = 0 <;> by_cases hu2 : d2.microsecond = 0
  · simp only [hu1, hu2, if_pos rfl, List.nil_append] at h
    exact ⟨by omega, offCase b1 b2 h⟩
  · rw [if_pos hu1, if_neg hu2] at h
    simp only [List.nil_append, List.cons_append] at h
    exfalso
    match ho : d1.off with
    | none => rw [ho] at h; simp at h
    | some o =>
        rw [ho] at h
        simp only [offsetChars, List.cons_append, List.cons.injEq] at h
        rcases h with ⟨hc, -⟩
        by_cases hs : o < 0 <;> simp [hs] at hc
  · rw [if_neg hu1, if_pos hu2] at h
    simp only [List.nil_append, List.cons_append] at h
    exfalso
    match ho : d2.off with
    | none => rw [ho] at h; simp at h
    | some o =>
        rw [ho] at h
        simp only [offsetChars, List.cons_append, List.cons.injEq] at h
        rcases h with ⟨hc, -⟩
        by_cases hs : o < 0 <;> simp [hs] at hc
  · rw [if_neg hu1, if_neg hu2] at h
    simp only [List.cons_append, List.cons.injEq] at h
    rcases h with ⟨-, h⟩
    have hlen : (pad6 d1.microsecond).length = (pad6 d2.microsecond).length := by
      simp [pad6]
    obtain ⟨hus, hoff⟩ := List.append_inj h hlen
    exact ⟨pad6_inj v1 v2 hus, offCase b1 b2 hoff⟩

theorem isoChars_inj {d1 d2 : PyDateTime} (v1 : d1.Valid) (v2 : d2.Valid)
    (h : isoChars d1 = isoChars d2) : d1 = d2 := by
  obtain ⟨y1a, y1b, mo1a, mo1b, dy1a, dy1b, hr1, mi1, se1, us1, of1⟩ := v1
  obtain ⟨y2a, y2b, mo2a, mo2b, dy2a, dy2b, hr2, mi2, se2, us2, of2⟩ := v2
  have hdim1 := daysInMonth_le d1.year d1.month
  have hdim2 := daysInMonth_le d2.year d2.month
  have hshape : isoChars d1 = pad4 d1.year ++ ('-' :: (pad2 d1.month ++ ('-' ::
      (pad2 d1.day ++ ('T' :: (pad2 d1.hour ++ (':' :: (pad2 d1.minute ++
      (':' :: (pad2 d1.second ++ isoTail d1)))))))))) := rfl
  have hshape2 : isoChars d2 = pad4 d2.year ++ ('-' :: (pad2 d2.month ++ ('-' ::
      (pad2 d2.day ++ ('T' :: (pad2 d2.hour ++ (':' :: (pad2 d2.minute ++
      (':' :: (pad2 d2.second ++ isoTail d2)))))))))) := rfl
  rw [hshape, hshape2] at h
  obtain ⟨e1, h⟩ := List.append_inj h (by simp [pad4])
  have hy := pad4_inj (by omega) (by omega) e1
  simp only [List.cons.injEq, true_and] at h
  obtain ⟨e2, h⟩ := List.append_inj h (by simp [pad2])
  have hmo := pad2_inj (by omega) (by omega) e2
  simp only [List.cons.injEq, true_and] at h
  obtain ⟨e3, h⟩ := List.append_inj h (by simp [pad2])
  have hdy := pad2_inj (by omega) (by omega) e3
  simp only [List.cons.injEq, true_and] at h
  obtain ⟨e4, h⟩ := List.append_inj h (by simp [pad2])
  have hhr := pad2_inj (by omega) (by omega) e4
  simp only [List.cons.injEq, true_and] at h
  obtain ⟨e5, h⟩ := List.append_inj h (by simp [pad2])
  have hmi := pad2_inj (by omega) (by omega) e5
  simp only [List.cons.injEq, true_and] at h
  obtain ⟨e6, h⟩ := List.append_inj h (by simp [pad2])
  have hse := pad2_inj (by omega) (by omega) e6
  obtain ⟨hus, hoff⟩ := isoTail_inj us1 us2 of1 of2 h
  cases d1; cases d2
  simp_all

/-- `isoformat` is injective on valid datetimes. -/
theorem isoformat_inj {d1 d2 : PyDateTime} (v1 : d1.Valid) (v2 : d2.Valid)
    (h : isoformat d1 = isoformat d2) : d1 = d2 :=
  isoChars_inj v1 v2 (congrArg String.data h)

/-! ## SHA-1 (`hashlib.sha1(...).hexdigest()`)

A direct executable implementation of FIPS 180-4 SHA-1 over the UTF-8 bytes
of a string, used by `hash_event` (src/utils.py line 9) and `_cache_key`
(src/sources.py line 92).  The claims about these functions carry a "no hash
collision" proviso, so no theorem needs to evaluate the compression function;
it is implemented in full so the embedded definitions match the source. -/

/-- UTF-8 encoding of one scalar value. -/
def utf8Char (c : Char) : List Nat :=
  let n := c.toNat
  if n < 128 then [n]
  else if n < 2048 then [192 + n / 64, 128 + n % 64]
  else if n < 65536 then [224 + n / 4096, 128 + n / 64 % 64, 128 + n % 64]
  else [240 + n / 262144, 128 + n / 4096 % 64, 128 + n / 64 % 64, 128 + n % 64]

/-- UTF-8 encoding of a string (`s.encode("utf-8")`). -/
def utf8Bytes (s : String) : List Nat := (s.data.map utf8Char).flatten

/-- 32-bit left rotation. -/
def rotl (k n : Nat) : Nat :=
  ((n * 2 ^ k) % 4294967296) + n / 2 ^ (32 - k)

/-- Big-endian 8-byte rendering of the message bit length. -/
def be8 (n : Nat) : List Nat :=
  [n / 2 ^ 56 % 256, n / 2 ^ 48 % 256, n / 2 ^ 40 % 256, n / 2 ^ 32 % 256,
    n / 2 ^ 24 % 256, n / 2 ^ 16 % 256, n / 2 ^ 8 % 256, n % 256]

/-- SHA-1 padding: `0x80`, zeros to 56 mod 64, then the bit length. -/
def sha1Pad (msg : List Nat) : List Nat :=
  let L := msg.length
  msg ++ [128] ++ List.replicate ((64 - (L + 9) % 64) % 64) 0 ++ be8 (L * 8)

/-- The sixteen initial 32-bit words of a 64-byte chunk (big-endian). -/
def w16 : List Nat → List Nat
  | b0 :: b1 :: b2 :: b3 :: rest =>
      (((b0 * 256 + b1) * 256 + b2) * 256 + b3) :: w16 rest
  | _ => []

/-- Extend a 16-word schedule by `k` further words
(`w[i] = rotl1 (w[i-3] xor w[i-8] xor w[i-14] xor w[i-16])`). -/
def sha1Extend (ws : List Nat) : Nat → List Nat
  | 0 => ws
  | k + 1 =>
      let n := ws.length
      sha1Extend
        (ws ++ [rotl 1 (Nat.xor (Nat.xor (ws.getD (n - 3) 0) (ws.getD (n - 8) 0))
          (Nat.xor (ws.getD (n - 14) 0) (ws.getD (n - 16) 0)))]) k

/-- The SHA-1 round function. -/
def sha1F (t b c d : Nat) : Nat :=
  if t < 20 then Nat.lor (Nat.land b c) (Nat.land (Nat.xor b 4294967295) d)
  else if t < 40 then Nat.xor (Nat.xor b c) d
  else if t < 60 then Nat.lor (Nat.lor (Nat.land b c) (Nat.land b d)) (Nat.land c d)
  else Nat.xor (Nat.xor b c) d

/-- The SHA-1 round constants. -/
def sha1K (t : Nat) : Nat :=
  if t < 20 then 1518500249
  else if t < 40 then 1859775393
  else if t < 60 then 2400959708
  else 3395469782

/-- The 80 SHA-1 rounds over a message schedule. -/
def sha1Rounds : Nat → List Nat → Nat × Nat × Nat × Nat × Nat → Nat × Nat × Nat × Nat × Nat
  | _, [], st => st
  | t, wt :: ws, (a, b, c, d, e) =>
      sha1Rounds (t + 1) ws
        ((rotl 5 a + sha1F t b c d + e + sha1K t + wt) % 4294967296,
          a, rotl 30 b, c, d)

/-- Process one 64-byte chunk. -/
def sha1Chunk (st : Nat × Nat × Nat × Nat × Nat) (chunk : List Nat) :
    Nat × Nat × Nat × Nat × Nat :=
  let ws := sha1Extend (w16 chunk) 64
  let r := sha1Rounds 0 ws st
  ((st.1 + r.1) % 4294967296,
    (st.2.1 + r.2.1) % 4294967296,
    (st.2.2.1 + r.2.2.1) % 4294967296,
    (st.2.2.2.1 + r.2.2.2.1) % 4294967296,
    (st.2.2.2.2 + r.2.2.2.2) % 4294967296)

/-- Split a padded message into 64-byte chunks (with a fuel argument for
structural termination; the fuel is instantiated with the message length). -/
def chunks64 : Nat → List Nat → List (List Nat)
  | 0, _ => []
  | _, [] => []
  | fuel + 1, l => l.take 64 :: chunks64 fuel (l.drop 64)

/-- Hexadecimal digit (lower case, as `hexdigest` produces). -/
def hexChar (n : Nat) : Char :=
  if n < 10 then dchar n
  else if n = 10 then 'a' else if n = 11 then 'b' else if n = 12 then 'c'
  else if n = 13 then 'd' else if n = 14 then 'e' else 'f'

/-- Two hex digits of a byte. -/
def hexByte (n : Nat) : List Char := [hexChar (n / 16 % 16), hexChar (n % 16)]

/-- `hashlib.sha1(s.encode("utf-8")).hexdigest()`. -/
def sha1hex (s : String) : String :=
  let msg := sha1Pad (utf8Bytes s)
  let st := (chunks64 msg.length msg).foldl sha1Chunk
    (1732584193, 4023233417, 2562383102, 271733878, 3285377520)
  let words := [st.1, st.2.1, st.2.2.1, st.2.2.2.1, st.2.2.2.2]
  ⟨(words.map (fun w => hexByte (w / 2 ^ 24) ++ hexByte (w / 2 ^ 16 % 256) ++
      hexByte (w / 2 ^ 8 % 256) ++ hexByte (w % 256))).flatten⟩

/-- Two distinct strings with the same SHA-1 digest (the proviso under which
the identity claims are stated). -/
def Sha1Collision : Prop := ∃ a b : String, a ≠ b ∧ sha1hex a = sha1hex b

/-! ## `utils.hash_event` (src/utils.py, lines 7-9) -/

/-- The pre-hash identity string of src/utils.py line 8:
`f"{(title or '').strip()}|{start.isoformat()}|{(location or '').strip()}"`. -/
def eventBase (title : String) (start : PyDateTime) (location : String) : String :=
  pyStrip title ++ "|" ++ isoformat start ++ "|" ++ pyStrip location

/-- `hash_event(title, start, location)` from src/utils.py lines 7-9. -/
def hash_event (title : String) (start : PyDateTime) (location : String) : String :=
  sha1hex (eventBase title start location)

theorem str_ext {a b : String} (h : a.data = b.data) : a = b := by
  cases a; cases b; exact congrArg String.mk h

theorem eventBase_data (t : String) (s : PyDateTime) (l : String) :
    (eventBase t s l).data =
      (pyStrip t).data ++ '|' :: (isoChars s ++ '|' :: (pyStrip l).data) := by
  have hbar : ("|" : String).data = ['|'] := rfl
  have hiso : (isoformat s).data = isoChars s := rfl
  simp only [eventBase, String.data_append, hbar, hiso, List.append_assoc,
    List.singleton_append, List.cons_append, List.nil_append]

theorem eventBase_inj_title {t1 t2 l : String} {s : PyDateTime}
    (h : pyStrip t1 ≠ pyStrip t2) : eventBase t1 s l ≠ eventBase t2 s l := by
  intro he
  apply h
  have hd := congrArg String.data he
  rw [eventBase_data, eventBase_data] at hd
  exact str_ext (List.append_inj' hd rfl).1

theorem eventBase_inj_start {t l : String} {s1 s2 : PyDateTime}
    (h : isoChars s1 ≠ isoChars s2) : eventBase t s1 l ≠ eventBase t s2 l := by
  intro he
  apply h
  have hd := congrArg String.data he
  rw [eventBase_data, eventBase_data] at hd
  have h2 := (List.append_inj hd rfl).2
  simp only [List.cons.injEq, true_and] at h2
  exact (List.append_inj' h2 rfl).1

theorem eventBase_inj_loc {t l1 l2 : String} {s : PyDateTime}
    (h : pyStrip l1 ≠ pyStrip l2) : eventBase t s l1 ≠ eventBase t s l2 := by
  intro he
  apply h
  have hd := congrArg String.data he
  rw [eventBase_data, eventBase_data] at hd
  have h2 := (List.append_inj hd rfl).2
  simp only [List.cons.injEq, true_and] at h2
  have h3 := (List.append_inj h2 rfl).2
  simp only [List.cons.injEq, true_and] at h3
  exact str_ext h3

/-! ### Claim C2: determinism and field-sensitivity of `hash_event`

`hash_event` strips the title and the location before hashing (src/utils.py
line 8), so two *different* titles (or locations) that agree after `strip()`
produce the identical id.  With that correction, identity is deterministic
and field-sensitive: a change in the stripped title, in the start instant
(valid datetimes render injectively into `isoformat`), or in the stripped
location changes the pre-hash string, hence the id, barring a SHA-1
collision. -/

/-- C2 counterexample: the titles "a" and "a " differ, yet the id is the
same (the `strip()` inside `hash_event` erases the difference before
hashing). -/
theorem C2_hash_event_counterexample :
    hash_event "a" (PyDateTime.mk 2025 10 23 19 0 0 0 none) "x" =
      hash_event "a " (PyDateTime.mk 2025 10 23 19 0 0 0 none) "x" ∧
    ("a" : String) ≠ "a " :=
  ⟨congrArg sha1hex (by decide), by decide⟩

/-- C2 (amended): `hash_event` is deterministic, and changing the stripped
title, the start (any distinct valid datetimes), or the stripped location
changes the id unless SHA-1 collides on the two distinct pre-hash strings. -/
theorem C2_hash_event_deterministic_field_sensitive
    (t1 t2 l1 l2 : String) (s1 s2 : PyDateTime) (v1 : s1.Valid) (v2 : s2.Valid) :
    hash_event t1 s1 l1 = hash_event t1 s1 l1 ∧
    (pyStrip t1 ≠ pyStrip t2 →
      hash_event t1 s1 l1 ≠ hash_event t2 s1 l1 ∨ Sha1Collision) ∧
    (s1 ≠ s2 →
      hash_event t1 s1 l1 ≠ hash_event t1 s2 l1 ∨ Sha1Collision) ∧
    (pyStrip l1 ≠ pyStrip l2 →
      hash_event t1 s1 l1 ≠ hash_event t1 s1 l2 ∨ Sha1Collision) := by
  refine ⟨rfl, fun ht => ?_, fun hs => ?_, fun hl => ?_⟩
  · by_cases hh : hash_event t1 s1 l1 = hash_event t2 s1 l1
    · exact Or.inr ⟨eventBase t1 s1 l1, eventBase t2 s1 l1,
        eventBase_inj_title ht, hh⟩
    · exact Or.inl hh
  · by_cases hh : hash_event t1 s1 l1 = hash_event t1 s2 l1
    · have hiso : isoChars s1 ≠ isoChars s2 := fun hc => hs (isoChars_inj v1 v2 hc)
      exact Or.inr ⟨eventBase t1 s1 l1, eventBase t1 s2 l1,
        eventBase_inj_start hiso, hh⟩
    · exact Or.inl hh
  · by_cases hh : hash_event t1 s1 l1 = hash_event t1 s1 l2
    · exact Or.inr ⟨eventBase t1 s1 l1, eventBase t1 s1 l2,
        eventBase_inj_loc hl, hh⟩
    · exact Or.inl hh

/-- C2 witness: the amended theorem applied at concrete titles, datetimes
and locations. -/
theorem C2_hash_event_deterministic_field_sensitive_witness :
    (PyDateTime.mk 2025 10 23 19 0 0 0 (some (-240))).Valid ∧
    (pyStrip "a" ≠ pyStrip "b" →
      hash_event "a" (PyDateTime.mk 2025 10 23 19 0 0 0 (some (-240))) "x" ≠
        hash_event "b" (PyDateTime.mk 2025 10 23 19 0 0 0 (some (-240))) "x" ∨
      Sha1Collision) :=
  ⟨by decide,
    (C2_hash_event_deterministic_field_sensitive "a" "b" "x" "y"
      (PyDateTime.mk 2025 10 23 19 0 0 0 (some (-240)))
      (PyDateTime.mk 2025 10 24 19 0 0 0 (some (-240)))
      (by decide) (by decide)).2.1⟩

/-! ## `utils.parse_when` (src/utils.py, lines 11-38)

The splitting regex of line 20 is `re.split(r"\s*[–\-to]+\s*", text,
maxsplit=1, flags=re.IGNORECASE)`.  Note that `[–\-to]` is a character
*class*: it matches any single one of the characters `–`, `-`, `t`, `o`
(case-insensitively), not the word "to". -/

/-- A character of the separator class `[–\-to]` with `re.IGNORECASE`. -/
def sepChar (c : Char) : Bool :=
  c = '–' || c = '-' || c = 't' || c = 'o' || c = 'T' || c = 'O'

def collapseWSGo : Bool → List Char → List Char
  | _, [] => []
  | prevWS, c :: cs =>
    if isPyWS c then
      if prevWS then collapseWSGo true cs else ' ' :: collapseWSGo true cs
    else c :: collapseWSGo false cs

/-- `re.sub(r"\s+", " ", s)` on char lists: each maximal whitespace run
becomes one space (the boolean tracks whether the previous character was
part of a whitespace run). -/
def collapseWSAux (l : List Char) : List Char := collapseWSGo false l

/-- `re.sub(r"\s+", " ", s)`. -/
def collapseWSAll (s : String) : String := ⟨collapseWSAux s.data⟩

/-- The engine of `re.split(r"\s*[–\-to]+\s*", text, maxsplit=1, re.I)`:
scan for the first separator-class character; the match also absorbs the
whitespace just before it (`\s*`), the maximal separator run (`[–\-to]+`)
and the whitespace just after (`\s*`).  `pre` is the reversed prefix of
already-scanned characters. -/
def rangeSplitAux (pre : List Char) : List Char → List Char × Option (List Char)
  | [] => (pre.reverse, none)
  | c :: cs =>
    if sepChar c then
      ((pre.dropWhile isPyWS).reverse,
        some (((c :: cs).dropWhile sepChar).dropWhile isPyWS))
    else rangeSplitAux (c :: pre) cs

/-- `re.split(r"\s*[–\-to]+\s*", text, maxsplit=1, flags=re.IGNORECASE)`:
at most two parts. -/
def rangeSplit (s : String) : String × Option String :=
  match rangeSplitAux [] s.data with
  | (a, none) => (⟨a⟩, none)
  | (a, some b) => (⟨a⟩, some ⟨b⟩)

/-- Oracles for the external calls of `parse_when`: `dateutil`'s fuzzy parser
(`parser.parse(s, fuzzy=True, default=d)`, `none` modelling an exception),
the offset that `tz.gettz(name)` resolves to for the datetimes at hand, and
`datetime.now()`. -/
structure ParseOracles where
  fuzzyParse : String → PyDateTime → Option PyDateTime
  gettzOff : String → Option Int
  now : PyDateTime

/-- `if not dt.tzinfo: dt = dt.replace(tzinfo=tz.gettz(default_tz))`. -/
def withDefaultTz (gettzOff : String → Option Int) (tzname : String)
    (dt : PyDateTime) : PyDateTime :=
  if dt.off = none then { dt with off := gettzOff tzname } else dt

/-- `parse_when(text, default_tz, fallback_hours)` from src/utils.py lines
11-38: normalize whitespace, split once on the separator class, parse the
first part fuzzily with `datetime.now()` as default, parse the second part
(if any) fuzzily with the parsed start as default, and default the end to
`start + timedelta(hours=fallback_hours)` when absent or unparseable. -/
def parse_when (O : ParseOracles) (text : Option String)
    (default_tz : String := "America/New_York") (fallback_hours : Nat := 2) :
    Option PyDateTime × Option PyDateTime :=
  match text with
  | none => (none, none)
  | some t0 =>
    if t0 = "" then (none, none)
    else
      let t := pyStrip (collapseWSAll t0)
      match rangeSplit t with
      | (p0, rest) =>
        match O.fuzzyParse p0 O.now with
        | none => (none, none)
        | some st0 =>
          let st := withDefaultTz O.gettzOff default_tz st0
          let en : Option PyDateTime :=
            match rest with
            | some p1 =>
              match O.fuzzyParse p1 st with
              | some e => some (withDefaultTz O.gettzOff default_tz e)
              | none => none
            | none => none
          match en with
          | some e => (some st, some e)
          | none => (some st, some (st.addHours fallback_hours))

theorem all_weaken {l : List Char} {p q : Char → Bool}
    (h : ∀ c, p c = true → q c = true) (hl : l.all p = true) : l.all q = true := by
  rw [List.all_eq_true] at hl ⊢
  intro x hx
  exact h x (hl x hx)

theorem all_takeWhile (p : Char → Bool) (l : List Char) :
    (l.takeWhile p).all p = true := by
  induction l with
  | nil => rfl
  | cons c cs ih => by_cases h : p c <;> simp [List.takeWhile_cons, h, ih]

theorem rangeSplitAux_no_sep (l : List Char) :
    ∀ pre : List Char, l.any sepChar = false →
      rangeSplitAux pre l = (pre.reverse ++ l, none) := by
  induction l with
  | nil => intro pre _; simp [rangeSplitAux]
  | cons c cs ih =>
      intro pre h
      simp only [List.any_cons, Bool.or_eq_false_iff] at h
      rw [rangeSplitAux, if_neg (by simp [h.1]), ih (c :: pre) h.2]
      simp

/-- When the text contains no separator-class character at all, the split
returns the whole text as the single (start) part. -/
theorem rangeSplit_no_sep (s : String) (h : s.data.any sepChar = false) :
    rangeSplit s = (s, none) := by
  unfold rangeSplit
  rw [rangeSplitAux_no_sep s.data [] h]
  rfl

/-- When the split does produce two parts, the removed separator consists
only of separator-class characters and whitespace, contains at least one
separator-class character, and the two parts are the text on either side. -/
theorem rangeSplitAux_split (l : List Char) :
    ∀ pre p0 p1 : List Char, rangeSplitAux pre l = (p0, some p1) →
      ∃ sep : List Char, pre.reverse ++ l = p0 ++ sep ++ p1 ∧
        sep.any sepChar = true ∧
        sep.all (fun c => sepChar c || isPyWS c) = true := by
  induction l with
  | nil => intro pre p0 p1 h; simp [rangeSplitAux] at h
  | cons c cs ih =>
      intro pre p0 p1 h
      by_cases hc : sepChar c
      · rw [rangeSplitAux, if_pos hc] at h
        obtain ⟨h1, h2⟩ := Prod.mk.injEq .. ▸ h
        refine ⟨(pre.takeWhile isPyWS).reverse ++ (c :: cs).takeWhile sepChar ++
            ((c :: cs).dropWhile sepChar).takeWhile isPyWS, ?_, ?_, ?_⟩
        · rw [← h1, ← Option.some.injEq _ _ |>.mp h2]
          conv_lhs =>
            rw [← List.takeWhile_append_dropWhile isPyWS pre,
              ← List.takeWhile_append_dropWhile sepChar (c :: cs),
              ← List.takeWhile_append_dropWhile isPyWS
                (List.dropWhile sepChar (c :: cs))]
          simp [List.reverse_append, List.append_assoc]
          rw [← List.append_assoc, ← List.reverse_append,
            List.takeWhile_append_dropWhile]
        · have : c ∈ (c :: cs).takeWhile sepChar := by
            rw [List.takeWhile_cons_of_pos hc]; exact List.mem_cons_self ..
          simp only [List.any_append, Bool.or_eq_true]
          refine Or.inl (Or.inr ?_)
          exact List.any_eq_true.mpr ⟨c, this, hc⟩
        · simp only [List.all_append, Bool.and_eq_true]
          refine ⟨⟨?_, ?_⟩, ?_⟩
          · rw [List.all_reverse]
            exact all_weaken (fun x hx => by simp [hx]) (all_takeWhile isPyWS pre)
          · exact all_weaken (fun x hx => by simp [hx]) (all_takeWhile sepChar (c :: cs))
          · exact all_weaken (fun x hx => by simp [hx])
              (all_takeWhile isPyWS ((c :: cs).dropWhile sepChar))
      · rw [rangeSplitAux, if_neg hc] at h
        obtain ⟨sep, hs, ha, hb⟩ := ih (c :: pre) p0 p1 h
        refine ⟨sep, ?_, ha, hb⟩
        simpa [List.append_assoc] using hs

theorem rangeSplit_split {s : String} {p0 p1 : String}
    (h : rangeSplit s = (p0, some p1)) :
    ∃ sep : List Char, s.data = p0.data ++ sep ++ p1.data ∧
      sep.any sepChar = true ∧
      sep.all (fun c => sepChar c || isPyWS c) = true := by
  unfold rangeSplit at h
  match hx : rangeSplitAux [] s.data with
  | (a, none) => rw [hx] at h; simp at h
  | (a, some b) =>
      rw [hx] at h
      simp only [Prod.mk.injEq, Option.some.injEq] at h
      obtain ⟨h1, h2⟩ := h
      obtain ⟨sep, hs, ha, hb⟩ := rangeSplitAux_split s.data [] a b hx
      refine ⟨sep, ?_, ha, hb⟩
      simpa [← h1, ← h2] using hs

/-! ### Claim C3: free-text range recovery in `parse_when`

The separator of src/utils.py line 20 is the character class `[–\-to]+`
(with `re.IGNORECASE`), not the word "to": any run of `–`, `-`, `t`, `o`,
`T`, `O` (with adjacent whitespace) splits the text.  A text like
"night 9pm" contains no dash and no "to", yet it is split at the `t` of
"night", so its start is parsed from "nigh", not from the whole text. -/

/-- C3 counterexample: "night 9pm" contains no dash/en-dash and no "to"
substring, yet `parse_when`'s splitter does not keep the whole text as the
start expression — it splits at the letter `t`. -/
theorem C3_range_split_counterexample :
    containsSub "-" "night 9pm" = false ∧
    containsSub "–" "night 9pm" = false ∧
    containsSub "to" "night 9pm" = false ∧
    rangeSplit "night 9pm" ≠ ("night 9pm", none) ∧
    rangeSplit "night 9pm" = ("nigh", some "9pm") := by decide

/-- C3 (amended): `parse_when` splits the normalized text once (at most two
sides) at the first run of separator-class characters (`–`, `-`, `t`, `o`,
case-insensitive, with adjacent whitespace); a text containing none of those
characters is kept whole as the start expression; each side is parsed
independently and the second side's parse receives the parsed first side as
its default date context, falling back to `start + fallback_hours` when the
second side is absent or unparseable. -/
theorem C3_parse_when_split_behavior (O : ParseOracles) (t : String)
    (tzname : String) (fb : Nat) (ht : t ≠ "") :
    ((pyStrip (collapseWSAll t)).data.any sepChar = false →
      rangeSplit (pyStrip (collapseWSAll t)) = (pyStrip (collapseWSAll t), none) ∧
      parse_when O (some t) tzname fb =
        (match O.fuzzyParse (pyStrip (collapseWSAll t)) O.now with
         | none => (none, none)
         | some st0 =>
            (some (withDefaultTz O.gettzOff tzname st0),
              some ((withDefaultTz O.gettzOff tzname st0).addHours fb)))) ∧
    (∀ p0 p1 : String, rangeSplit (pyStrip (collapseWSAll t)) = (p0, some p1) →
      (∃ sep : List Char,
        (pyStrip (collapseWSAll t)).data = p0.data ++ sep ++ p1.data ∧
        sep.any sepChar = true ∧
        sep.all (fun c => sepChar c || isPyWS c) = true) ∧
      parse_when O (some t) tzname fb =
        (match O.fuzzyParse p0 O.now with
         | none => (none, none)
         | some st0 =>
            match O.fuzzyParse p1 (withDefaultTz O.gettzOff tzname st0) with
            | some e => (some (withDefaultTz O.gettzOff tzname st0),
                some (withDefaultTz O.gettzOff tzname e))
            | none => (some (withDefaultTz O.gettzOff tzname st0),
                some ((withDefaultTz O.gettzOff tzname st0).addHours fb)))) := by
  constructor
  · intro hno
    have hsp := rangeSplit_no_sep _ hno
    refine ⟨hsp, ?_⟩
    simp only [parse_when, if_neg ht]
    rw [hsp]
  · intro p0 p1 hsp
    refine ⟨rangeSplit_split hsp, ?_⟩
    simp only [parse_when, if_neg ht]
    rw [hsp]
    cases hf : O.fuzzyParse p0 O.now with
    | none => simp [hf]
    | some st0 =>
        cases hf2 : O.fuzzyParse p1 (withDefaultTz O.gettzOff tzname st0) <;>
          simp [hf, hf2]

/-- Concrete oracle for the C3 witness: `dateutil` answers for the two sides
of "june 5 - 9pm"; the answer for "9pm" is keyed on receiving the parsed
first side as default. -/
def C3demoOracles : ParseOracles where
  fuzzyParse := fun s d =>
    if s = "june 5" then some ⟨2026, 6, 5, 0, 0, 0, 0, none⟩
    else if s = "9pm" ∧ d = ⟨2026, 6, 5, 0, 0, 0, 0, some (-300)⟩ then
      some ⟨2026, 6, 5, 21, 0, 0, 0, none⟩
    else none
  gettzOff := fun _ => some (-300)
  now := ⟨2026, 1, 1, 0, 0, 0, 0, none⟩

/-- C3 witness: on "june 5 - 9pm" the amended theorem yields the two sides
parsed independently, the second with the first side's context. -/
theorem C3_parse_when_split_behavior_witness :
    parse_when C3demoOracles (some "june 5 - 9pm") "America/New_York" 2 =
      (some ⟨2026, 6, 5, 0, 0, 0, 0, some (-300)⟩,
        some ⟨2026, 6, 5, 21, 0, 0, 0, some (-300)⟩) := by
  have h := (C3_parse_when_split_behavior C3demoOracles "june 5 - 9pm"
    "America/New_York" 2 (by decide)).2 "june 5" "9pm" (by decide)
  rw [h.2]
  decide

/-! ## `sources.py`: the cache & retry client (lines 87-175) -/

/-- Modelled from the spec: `jitter_sleep` is imported from `utils` at
src/sources.py line 15 but its definition is missing from src/; per the spec
it applies "a randomized politeness delay within a configured [min,max]
window".  The model returns the slept duration, a value in `[lo, hi]` drawn
from the randomness `rand`. -/
def jitter_sleep (lo hi rand : Nat) : Nat := lo + rand % (hi + 1 - lo)

theorem jitter_sleep_bounds (lo hi r : Nat) (h : lo ≤ hi) :
    lo ≤ jitter_sleep lo hi r ∧ jitter_sleep lo hi r ≤ hi := by
  unfold jitter_sleep
  have : r % (hi + 1 - lo) < hi + 1 - lo := Nat.mod_lt _ (by omega)
  omega

/-- One persisted cache entry (src/sources.py lines 149-154). -/
structure CacheEntry where
  etag : Option String
  last_modified : Option String
  fetched_at : Nat
  body : String
deriving DecidableEq, Repr

/-- The `http_cache` map of `data/cache.json`, keyed by `_cache_key`. -/
abbrev HttpCache := List (String × CacheEntry)

/-- Python dict assignment `cache["http_cache"][key] = entry`. -/
def cacheInsert (k : String) (e : CacheEntry) (c : HttpCache) : HttpCache :=
  (k, e) :: c.eraseP (fun p => p.1 == k)

/-- The request headers the client reads and writes. -/
structure Headers where
  userAgent : Option String := none
  authorization : Option String := none
  ifNoneMatch : Option String := none
  ifModifiedSince : Option String := none
deriving DecidableEq, Repr

/-- The credential/user-agent fingerprint string hashed by `_cache_key`:
`auth + "|" + ua` where `auth` and `ua` are the `Authorization` and
`User-Agent` headers (defaulting to "", as `headers.get(..., "")` does). -/
def credFingerprint (h : Headers) : String :=
  (h.authorization.getD "") ++ "|" ++ (h.userAgent.getD "")

/-- `_cache_key(url, headers)` from src/sources.py lines 87-92:
`url + "||" + sha1((auth + "|" + ua).encode("utf-8")).hexdigest()`. -/
def _cache_key (url : String) (h : Headers) : String :=
  url ++ "||" ++ sha1hex (credFingerprint h)

/-- The answer of one `session.get` attempt: a response, or a
`requests.RequestException`. -/
inductive NetAnswer where
  | resp (status : Nat) (body : String) (etag lastModified : Option String)
  | exc
deriving DecidableEq, Repr

/-- The ambient world of one `req_with_cache` call: the network's answer to
each attempt (given the headers actually sent), the clock, the randomness
consumed by the politeness delay, and the decoder for `data:` URL payloads
(`urllib.parse.unquote_to_bytes` plus optional base64, `none` = decode
error). -/
structure NetWorld where
  net : Headers → Nat → NetAnswer
  timeNow : Nat
  rand : Nat
  dataDecode : String → Bool → Option String

/-- The outcome of `req_with_cache`, with its effects made explicit: the
returned `(status, body, meta)` triple, the in-memory cache afterwards, the
`time.sleep` backoffs performed, the politeness delays applied
(`jitter_sleep` calls), and the number of `save_cache` writes to the
persisted store. -/
structure ReqResult where
  status : Nat
  body : String
  metaEtag : Option String := none
  metaLastModified : Option String := none
  cache : HttpCache
  sleeps : List Nat := []
  delays : List Nat := []
  saves : Nat := 0
deriving DecidableEq, Repr

/-- The retryable statuses of src/sources.py line 161. -/
def retryStatus (st : Nat) : Bool :=
  st = 429 || st = 500 || st = 502 || st = 503 || st = 504

/-- Does this attempt trigger the retry/backoff path (retryable status or
transport error)? -/
def retryAnswer : NetAnswer → Bool
  | .exc => true
  | .resp st _ _ _ => retryStatus st

/-- Conditional headers attached from the cache entry (src/sources.py lines
123-126). -/
def condHeaders (entry : Option CacheEntry) (h : Headers) : Headers :=
  match entry with
  | none => h
  | some e => { h with ifNoneMatch := e.etag, ifModifiedSince := e.last_modified }

/-- The retry loop of src/sources.py lines 130-175 (`for attempt in
range(max_retries)` with `backoff = 1` doubling and capped at 30): `fuel`
counts the remaining attempts, `k` the attempt index, `sleeps` the backoff
sleeps already performed. -/
def reqLoop (W : NetWorld) (hdrs : Headers) (throttle : Nat × Nat) (key : String)
    (entry : Option CacheEntry) (cache : HttpCache) :
    Nat → Nat → Nat → List Nat → ReqResult
  | 0, _, _, sleeps => { status := 599, body := "", cache := cache, sleeps := sleeps }
  | fuel + 1, k, backoff, sleeps =>
    match W.net hdrs k with
    | .exc =>
        reqLoop W hdrs throttle key entry cache fuel (k + 1)
          (min (backoff * 2) 30) (sleeps ++ [backoff])
    | .resp st body etag lm =>
      if st = 304 then
        { status := 304, body := (entry.map (·.body)).getD "",
          cache := cache, sleeps := sleeps }
      else if st = 200 ∨ st = 201 then
        { status := st, body := body, metaEtag := etag, metaLastModified := lm,
          cache := cacheInsert key ⟨etag, lm, W.timeNow, strTake body 500000⟩ cache,
          sleeps := sleeps,
          delays := [jitter_sleep throttle.1 throttle.2 W.rand], saves := 1 }
      else if retryStatus st then
        reqLoop W hdrs throttle key entry cache fuel (k + 1)
          (min (backoff * 2) 30) (sleeps ++ [backoff])
      else
        { status := st, body := "", cache := cache, sleeps := sleeps }

/-- Python `url.split(",", 1)` when it succeeds in producing two parts. -/
def splitFirstComma (s : String) : Option (String × String) :=
  if s.data.contains ',' then
    some (⟨s.data.takeWhile (fun c => c != ',')⟩,
      ⟨(s.data.dropWhile (fun c => c != ',')).tail⟩)
  else none

/-- Python `s.startswith(pfx)`. -/
def startsWithB (pfx s : String) : Bool := isPrefixB pfx.data s.data

/-- `req_with_cache(url, headers, throttle, max_retries)` from src/sources.py
lines 95-175: the `data:` fast path, the conditional-header attach from the
cache entry keyed by `_cache_key`, and the retry loop. -/
def req_with_cache (W : NetWorld) (url : String) (headers : Headers)
    (cache : HttpCache) (throttle : Nat × Nat := (2, 5))
    (max_retries : Nat := 3) : ReqResult :=
  if startsWithB "data:" url then
    match splitFirstComma url with
    | none => { status := 400, body := "", cache := cache }
    | some (meta, dataPart) =>
      match W.dataDecode dataPart (containsSub ";base64" (pyLower meta)) with
      | some body => { status := 200, body := body, cache := cache }
      | none => { status := 400, body := "", cache := cache }
  else
    let key := _cache_key url headers
    let entry := cache.lookup key
    reqLoop W (condHeaders entry headers) throttle key entry cache max_retries 0 1 []

/-- The backoff sleeps performed by `fuel` consecutive failing attempts
starting from backoff `b`. -/
def backoffSeq (b : Nat) : Nat → List Nat
  | 0 => []
  | n + 1 => b :: backoffSeq (min (b * 2) 30) n

/-- The backoff value after `n` failing attempts starting from backoff `b`. -/
def backoffIter (b : Nat) : Nat → Nat
  | 0 => b
  | n + 1 => backoffIter (min (b * 2) 30) n

theorem backoff_step (k : Nat) :
    min (min (2 ^ k) 30 * 2) 30 = min (2 ^ (k + 1)) 30 := by
  have h2 : 2 ^ (k + 1) = 2 ^ k * 2 := by rw [pow_succ]
  omega

theorem backoffSeq_spec (m : Nat) : ∀ k : Nat,
    backoffSeq (min (2 ^ k) 30) m = (List.range m).map (fun j => min (2 ^ (k + j)) 30) := by
  induction m with
  | zero => intro k; simp [backoffSeq]
  | succ n ih =>
      intro k
      rw [backoffSeq, backoff_step, ih (k + 1), List.range_succ_eq_map]
      simp only [List.map_cons, List.map_map, Nat.add_zero]
      refine congrArg₂ List.cons rfl ?_
      refine List.map_congr_left fun j _ => ?_
      have : k + 1 + j = k + (j + 1) := by omega
      simp [Function.comp, this]

/-- A prefix of retryable attempts only advances the loop: its sleeps are the
backoff sequence and the state is otherwise untouched. -/
theorem reqLoop_skip (W : NetWorld) (hdrs : Headers) (throttle : Nat × Nat)
    (key : String) (entry : Option CacheEntry) (cache : HttpCache)
    (steps : Nat) : ∀ fuel k b sleeps, steps ≤ fuel →
    (∀ j, k ≤ j → j < k + steps → retryAnswer (W.net hdrs j) = true) →
    reqLoop W hdrs throttle key entry cache fuel k b sleeps =
      reqLoop W hdrs throttle key entry cache (fuel - steps) (k + steps)
        (backoffIter b steps) (sleeps ++ backoffSeq b steps) := by
  induction steps with
  | zero => intro fuel k b sleeps _ _; simp [backoffSeq, backoffIter]
  | succ n ih =>
      intro fuel k b sleeps hle hretry
      obtain ⟨f, rfl⟩ : ∃ f, fuel = f + 1 := ⟨fuel - 1, by omega⟩
      have hk := hretry k (le_refl k) (by omega)
      rw [reqLoop]
      have step1 : (match W.net hdrs k with
          | .exc =>
              reqLoop W hdrs throttle key entry cache f (k + 1)
                (min (b * 2) 30) (sleeps ++ [b])
          | .resp st body etag lm =>
            if st = 304 then
              { status := 304, body := (entry.map (·.body)).getD "",
                cache := cache, sleeps := sleeps }
            else if st = 200 ∨ st = 201 then
              { status := st, body := body, metaEtag := etag, metaLastModified := lm,
                cache := cacheInsert key ⟨etag, lm, W.timeNow, strTake body 500000⟩ cache,
                sleeps := sleeps,
                delays := [jitter_sleep throttle.1 throttle.2 W.rand], saves := 1 }
            else if retryStatus st then
              reqLoop W hdrs throttle key entry cache f (k + 1)
                (min (b * 2) 30) (sleeps ++ [b])
            else
              { status := st, body := "", cache := cache, sleeps := sleeps }) =
          reqLoop W hdrs throttle key entry cache f (k + 1)
            (min (b * 2) 30) (sleeps ++ [b]) := by
        cases hnet : W.net hdrs k with
        | exc => rfl
        | resp st body etag lm =>
            rw [hnet] at hk
            simp only [retryAnswer] at hk
            have h304 : ¬ st = 304 := by
              intro hc; subst hc; simp [retryStatus] at hk
            have h2xx : ¬ (st = 200 ∨ st = 201) := by
              rintro (hc | hc) <;> (subst hc; simp [retryStatus] at hk)
            simp [h304, h2xx, hk]
      rw [step1, ih f (k + 1) (min (b * 2) 30) (sleeps ++ [b]) (by omega)
        (fun j hj1 hj2 => hretry j (by omega) (by omega))]
      have harr : f + 1 - (n + 1) = f - n := by omega
      rw [harr]
      have hb : (sleeps ++ [b]) ++ backoffSeq (min (b * 2) 30) n =
          sleeps ++ backoffSeq b (n + 1) := by
        rw [List.append_assoc]
        rfl
      rw [hb]
      have hk1 : k + 1 + n = k + (n + 1) := by omega
      rw [hk1]
      rfl

theorem backoffSeq_one (n : Nat) :
    backoffSeq 1 n = (List.range n).map (fun k => min (2 ^ k) 30) := by
  have h1 : (1 : Nat) = min (2 ^ 0) 30 := by norm_num
  rw [h1, backoffSeq_spec n 0]
  simp

/-! ### Claim C4: retry exhaustion

When every attempt yields a retryable status (429/500/502/503/504) or a
transport error, the client sleeps `min(2^k, 30)` seconds after the `k`-th
attempt (backoff starts at 1, doubles, capped at 30), performs no politeness
delay, never writes the cache, and returns status 599 with an empty body —
it never raises to the caller (the loop is total and only
`requests.RequestException` is raised inside the `try`). -/

/-- C4: exhausting all attempts on retryable statuses or transport errors
returns the distinguished failure status 599 with empty body, after
exponential backoff sleeps 1, 2, 4, ... capped at 30s. -/
theorem C4_req_with_cache_retry_exhaustion (W : NetWorld) (url : String)
    (headers : Headers) (cache : HttpCache) (throttle : Nat × Nat) (n : Nat)
    (hurl : startsWithB "data:" url = false)
    (hretry : ∀ k, k < n → retryAnswer
      (W.net (condHeaders (cache.lookup (_cache_key url headers)) headers) k) = true) :
    req_with_cache W url headers cache throttle n =
      { status := 599, body := "", cache := cache,
        sleeps := (List.range n).map (fun k => min (2 ^ k) 30) } := by
  unfold req_with_cache
  rw [if_neg (by simp [hurl])]
  show reqLoop W (condHeaders (cache.lookup (_cache_key url headers)) headers)
      throttle (_cache_key url headers) (cache.lookup (_cache_key url headers))
      cache n 0 1 [] = _
  rw [reqLoop_skip W _ throttle _ _ cache n n 0 1 [] (le_refl n)
    (fun j _ hj2 => hretry j (by omega))]
  rw [Nat.sub_self, List.nil_append, backoffSeq_one]
  rfl

/-- C4 witness: three straight 503 answers exhaust the default three
attempts; the result is (599, ""), the cache untouched, the sleeps 1, 2, 4. -/
theorem C4_req_with_cache_retry_exhaustion_witness :
    req_with_cache
      { net := fun _ _ => .resp 503 "oops" none none, timeNow := 7, rand := 0,
        dataDecode := fun _ _ => none }
      "http://example.org/feed" { userAgent := some "fxbg-event-bot/1.0" }
      [] (2, 5) 3 =
      { status := 599, body := "", cache := [], sleeps := [1, 2, 4] } := by
  rw [C4_req_with_cache_retry_exhaustion
    { net := fun _ _ => .resp 503 "oops" none none, timeNow := 7, rand := 0,
      dataDecode := fun _ _ => none }
    "http://example.org/feed" { userAgent := some "fxbg-event-bot/1.0" } []
    (2, 5) 3 (by decide) (fun k _ => rfl)]
  rfl

/-! ### Claim C5: the 304 path -/

/-- C5: a fetch answered 304 (after any retryable prefix) returns the cached
body for the (URL, credential fingerprint) key with no politeness delay, no
backoff sleep for that answer, no `save_cache` write, and an unchanged
in-memory cache. -/
theorem C5_req_with_cache_304 (W : NetWorld) (url : String) (headers : Headers)
    (cache : HttpCache) (throttle : Nat × Nat) (n k : Nat) (ent : CacheEntry)
    (b : String) (e l : Option String)
    (hurl : startsWithB "data:" url = false)
    (hent : cache.lookup (_cache_key url headers) = some ent)
    (hk : k < n)
    (hpre : ∀ j, j < k → retryAnswer (W.net (condHeaders (some ent) headers) j) = true)
    (h304 : W.net (condHeaders (some ent) headers) k = .resp 304 b e l) :
    req_with_cache W url headers cache throttle n =
      { status := 304, body := ent.body, cache := cache,
        sleeps := (List.range k).map (fun j => min (2 ^ j) 30) } := by
  unfold req_with_cache
  rw [if_neg (by simp [hurl])]
  show reqLoop W (condHeaders (cache.lookup (_cache_key url headers)) headers)
      throttle (_cache_key url headers) (cache.lookup (_cache_key url headers))
      cache n 0 1 [] = _
  rw [hent]
  rw [reqLoop_skip W _ throttle _ _ cache k n 0 1 [] (by omega)
    (fun j _ hj2 => hpre j (by omega))]
  obtain ⟨m, hm⟩ : ∃ m, n - k = m + 1 := ⟨n - k - 1, by omega⟩
  rw [hm, Nat.zero_add, List.nil_append, backoffSeq_one]
  rw [reqLoop, h304]
  rfl

/-- C5 witness: cached entry present, first answer 304 — the cached body
comes back, the cache is unchanged, no delay, no save. -/
theorem C5_req_with_cache_304_witness :
    req_with_cache
      { net := fun _ _ => .resp 304 "" none none, timeNow := 7, rand := 0,
        dataDecode := fun _ _ => none }
      "http://example.org/feed" { userAgent := some "bot" }
      [(_cache_key "http://example.org/feed" { userAgent := some "bot" },
        ⟨some "W/20", some "Tue", 5, "cached-body"⟩)] (2, 5) 3 =
      { status := 304, body := "cached-body",
        cache := [(_cache_key "http://example.org/feed" { userAgent := some "bot" },
          ⟨some "W/20", some "Tue", 5, "cached-body"⟩)] } := by
  have hlk : ∀ (k : String) (v : CacheEntry), List.lookup k [(k, v)] = some v :=
    fun k v => by simp [List.lookup]
  rw [C5_req_with_cache_304
    { net := fun _ _ => .resp 304 "" none none, timeNow := 7, rand := 0,
      dataDecode := fun _ _ => none }
    "http://example.org/feed" { userAgent := some "bot" }
    [(_cache_key "http://example.org/feed" { userAgent := some "bot" },
      ⟨some "W/20", some "Tue", 5, "cached-body"⟩)]
    (2, 5) 3 0 ⟨some "W/20", some "Tue", 5, "cached-body"⟩
    "" none none (by decide) (hlk _ _) (by omega) (fun j hj => by omega) rfl]
  rfl

/-! ### Claim C6: the success path -/

/-- C6: a fetch answered 200/201 (after any retryable prefix) caches the
body truncated to 500000 characters together with the etag and
last-modified, writes the persisted store once, applies exactly one
politeness delay lying within the throttle window, and returns the full
body with status 200/201 — without raising. -/
theorem C6_req_with_cache_success (W : NetWorld) (url : String)
    (headers : Headers) (cache : HttpCache) (throttle : Nat × Nat)
    (n k st : Nat) (body : String) (etag lm : Option String)
    (hurl : startsWithB "data:" url = false)
    (hst : st = 200 ∨ st = 201)
    (hk : k < n)
    (hpre : ∀ j, j < k → retryAnswer
      (W.net (condHeaders (cache.lookup (_cache_key url headers)) headers) j) = true)
    (hresp : W.net (condHeaders (cache.lookup (_cache_key url headers)) headers) k
      = .resp st body etag lm) :
    req_with_cache W url headers cache throttle n =
      { status := st, body := body, metaEtag := etag, metaLastModified := lm,
        cache := cacheInsert (_cache_key url headers)
          ⟨etag, lm, W.timeNow, strTake body 500000⟩ cache,
        sleeps := (List.range k).map (fun j => min (2 ^ j) 30),
        delays := [jitter_sleep throttle.1 throttle.2 W.rand], saves := 1 } ∧
    (throttle.1 ≤ throttle.2 →
      throttle.1 ≤ jitter_sleep throttle.1 throttle.2 W.rand ∧
      jitter_sleep throttle.1 throttle.2 W.rand ≤ throttle.2) := by
  refine ⟨?_, fun hth => jitter_sleep_bounds _ _ _ hth⟩
  unfold req_with_cache
  rw [if_neg (by simp [hurl])]
  show reqLoop W (condHeaders (cache.lookup (_cache_key url headers)) headers)
      throttle (_cache_key url headers) (cache.lookup (_cache_key url headers))
      cache n 0 1 [] = _
  rw [reqLoop_skip W _ throttle _ _ cache k n 0 1 [] (by omega)
    (fun j _ hj2 => hpre j (by omega))]
  obtain ⟨m, hm⟩ : ∃ m, n - k = m + 1 := ⟨n - k - 1, by omega⟩
  rw [hm, Nat.zero_add, List.nil_append, backoffSeq_one]
  rw [reqLoop, hresp]
  rcases hst with hst | hst <;> subst hst <;> rfl

/-- C6 witness: a first-attempt 200 stores the (short, so untruncated) body
with etag and last-modified, saves once, and the single politeness delay
lies within the [2,5] window. -/
theorem C6_req_with_cache_success_witness :
    req_with_cache
      { net := fun _ _ => .resp 200 "<rss/>" (some "E1") (some "Mon"),
        timeNow := 7, rand := 11, dataDecode := fun _ _ => none }
      "http://example.org/feed" { userAgent := some "bot" } [] (2, 5) 3 =
      { status := 200, body := "<rss/>", metaEtag := some "E1",
        metaLastModified := some "Mon",
        cache := cacheInsert (_cache_key "http://example.org/feed"
            { userAgent := some "bot" })
          ⟨some "E1", some "Mon", 7, "<rss/>"⟩ [],
        delays := [jitter_sleep 2 5 11], saves := 1 } ∧
    (2 ≤ jitter_sleep 2 5 11 ∧ jitter_sleep 2 5 11 ≤ 5) := by
  have h := C6_req_with_cache_success
    { net := fun _ _ => .resp 200 "<rss/>" (some "E1") (some "Mon"),
      timeNow := 7, rand := 11, dataDecode := fun _ _ => none }
    "http://example.org/feed" { userAgent := some "bot" } [] (2, 5) 3 0 200
    "<rss/>" (some "E1") (some "Mon") (by decide) (Or.inl rfl) (by omega)
    (fun j hj => by omega) rfl
  refine ⟨?_, h.2 (by omega)⟩
  rw [h.1]
  rfl

/-! ### Claim C7: cache keys and credential fingerprints

`_cache_key` hashes `auth + "|" + ua`.  Distinct `(Authorization,
User-Agent)` pairs can produce the *same* fingerprint string — e.g.
`("a|b", "c")` and `("a", "b|c")` — so "different Authorization or
User-Agent values" does not always change the key, even with no hash
collision.  What holds: the key changes whenever the fingerprint string
changes (barring a SHA-1 collision), and the fingerprint does change
whenever one of the two header values changes while the other is held
fixed. -/

/-- C7 counterexample: two header pairs with different Authorization *and*
different User-Agent values whose fingerprints — and hence cache keys — are
identical, with no hash collision involved. -/
theorem C7_cache_key_counterexample :
    _cache_key "http://x" { authorization := some "a|b", userAgent := some "c" } =
      _cache_key "http://x" { authorization := some "a", userAgent := some "b|c" } ∧
    (some "a|b" : Option String) ≠ some "a" ∧
    (some "c" : Option String) ≠ some "b|c" := by
  refine ⟨?_, by decide, by decide⟩
  show "http://x" ++ "||" ++ sha1hex
      (credFingerprint { authorization := some "a|b", userAgent := some "c" }) = _
  exact congrArg (fun s => "http://x" ++ "||" ++ sha1hex s) (by decide)

/-- C7 (amended): cache keys for the same URL differ whenever the
credential/user-agent fingerprints differ, barring a SHA-1 collision; and
the fingerprint differs whenever the Authorization value changes with the
User-Agent fixed, or the User-Agent changes with the Authorization fixed. -/
theorem C7_cache_key_fingerprint (url : String) (h1 h2 : Headers) :
    (credFingerprint h1 ≠ credFingerprint h2 →
      _cache_key url h1 ≠ _cache_key url h2 ∨ Sha1Collision) ∧
    (h1.authorization.getD "" ≠ h2.authorization.getD "" →
      h1.userAgent.getD "" = h2.userAgent.getD "" →
      credFingerprint h1 ≠ credFingerprint h2) ∧
    (h1.authorization.getD "" = h2.authorization.getD "" →
      h1.userAgent.getD "" ≠ h2.userAgent.getD "" →
      credFingerprint h1 ≠ credFingerprint h2) := by
  refine ⟨fun hfp => ?_, fun ha hu hfp => ?_, fun ha hu hfp => ?_⟩
  · by_cases hk : _cache_key url h1 = _cache_key url h2
    · refine Or.inr ⟨credFingerprint h1, credFingerprint h2, hfp, ?_⟩
      have hd := congrArg String.data hk
      simp only [_cache_key, String.data_append] at hd
      exact str_ext (List.append_cancel_left hd)
    · exact Or.inl hk
  · apply ha
    have hd := congrArg String.data hfp
    simp only [credFingerprint, String.data_append, hu] at hd
    exact str_ext (List.append_cancel_right (List.append_cancel_right hd))
  · apply hu
    have hd := congrArg String.data hfp
    simp only [credFingerprint, String.data_append, ha] at hd
    exact str_ext (List.append_cancel_left hd)

/-- C7 witness: same URL and User-Agent, two different bearer tokens — the
fingerprints differ, so the keys differ barring a SHA-1 collision. -/
theorem C7_cache_key_fingerprint_witness :
    credFingerprint { authorization := some "Bearer A", userAgent := some "bot" } ≠
      credFingerprint { authorization := some "Bearer B", userAgent := some "bot" } ∧
    (_cache_key "http://x" { authorization := some "Bearer A", userAgent := some "bot" } ≠
      _cache_key "http://x" { authorization := some "Bearer B", userAgent := some "bot" } ∨
      Sha1Collision) :=
  ⟨by decide,
    (C7_cache_key_fingerprint "http://x"
      { authorization := some "Bearer A", userAgent := some "bot" }
      { authorization := some "Bearer B", userAgent := some "bot" }).1 (by decide)⟩

/-! ## `main.py`: regex helpers for the normalizer -/

/-- `[A-Za-z]`. -/
def isAlphaAZ (c : Char) : Bool := ('A' ≤ c && c ≤ 'Z') || ('a' ≤ c && c ≤ 'z')

/-- `\d`. -/
def isDigitC (c : Char) : Bool := '0' ≤ c && c ≤ '9'

/-- `\w` (ASCII). -/
def isWordChar (c : Char) : Bool := isAlphaAZ c || isDigitC c || c = '_'

/-- A run-collapsing substitution: each maximal run of characters satisfying
`p` becomes a single `r` (the boolean tracks whether the previous character
was part of a run). -/
def collapseRunsGo (p : Char → Bool) (r : Char) : Bool → List Char → List Char
  | _, [] => []
  | prevRun, c :: cs =>
    if p c then
      if prevRun then collapseRunsGo p r true cs
      else r :: collapseRunsGo p r true cs
    else c :: collapseRunsGo p r false cs

/-- The character class of `WS_RE = [ \t\f\v]+` (main.py line 79). -/
def isMainWS (c : Char) : Bool := c = ' ' || c = '\t' || c = '\x0c' || c = '\x0b'

/-- `WS_RE.sub(" ", s)`. -/
def wsReSub (s : String) : String := ⟨collapseRunsGo isMainWS ' ' false s.data⟩

/-- `HTML_TAG_RE.sub("", s)` where `HTML_TAG_RE = <[^>]+>` (main.py line 78):
each `<...>` group with a non-empty interior up to the first `>` is removed
(fuel is the input length; each step consumes at least one character). -/
def htmlTagSubGo : Nat → List Char → List Char
  | 0, l => l
  | _, [] => []
  | fuel + 1, c :: rest =>
    if c = '<' then
      let run := rest.takeWhile (fun x => x != '>')
      let rem := rest.dropWhile (fun x => x != '>')
      if run ≠ [] ∧ rem ≠ [] then htmlTagSubGo fuel rem.tail
      else '<' :: htmlTagSubGo fuel rest
    else c :: htmlTagSubGo fuel rest

/-- `HTML_TAG_RE.sub("", s)`. -/
def htmlTagSub (s : String) : String := ⟨htmlTagSubGo s.data.length s.data⟩

/-- Python `s.replace(needle, repl)` (non-overlapping, left to right). -/
def replaceAllGo (needle repl : List Char) : Nat → List Char → List Char
  | 0, l => l
  | _, [] => []
  | fuel + 1, c :: cs =>
    if needle ≠ [] ∧ isPrefixB needle (c :: cs) then
      repl ++ replaceAllGo needle repl fuel ((c :: cs).drop needle.length)
    else c :: replaceAllGo needle repl fuel cs

/-- Python `s.replace(needle, repl)`. -/
def pyReplace (s needle repl : String) : String :=
  ⟨replaceAllGo needle.data repl.data s.data.length s.data⟩

/-- A line-break character for Python `str.splitlines` (the breaks this
pipeline's text can contain). -/
def isLineBreak (c : Char) : Bool :=
  c = '\n' || c = '\r' || c = '\x0b' || c = '\x0c'

/-- Python `s.splitlines()`: split at line breaks, treating `\r\n` as a
single break, without keeping the break characters and without a trailing
empty line. -/
def splitlinesGo (acc : List Char) : List Char → List (List Char)
  | [] => if acc = [] then [] else [acc.reverse]
  | '\r' :: '\n' :: rest => acc.reverse :: splitlinesGo [] rest
  | c :: rest =>
    if isLineBreak c then acc.reverse :: splitlinesGo [] rest
    else splitlinesGo (c :: acc) rest

/-- Python `s.splitlines()`. -/
def pySplitlines (s : String) : List String := (splitlinesGo [] s.data).map (⟨·⟩)

/-- Concatenate with a separator (Python `sep.join(parts)`). -/
def joinSep (sep : String) : List String → String
  | [] => ""
  | [s] => s
  | s :: rest => s ++ sep ++ joinSep sep rest

/-- `DATE_PREFIX_RE`'s `\s+`: require at least one whitespace character and
consume the maximal run. -/
def eatWS1 (l : List Char) : Option (List Char) :=
  if l.takeWhile isPyWS = [] then none else some (l.dropWhile isPyWS)

/-- `DATE_PREFIX_RE`'s `\d{1,2},`: one or two digits followed by a comma. -/
def eatDigits12Comma : List Char → Option (List Char)
  | d1 :: ',' :: r => if isDigitC d1 then some r else none
  | d1 :: d2 :: ',' :: r => if isDigitC d1 && isDigitC d2 then some r else none
  | _ => none

/-- `DATE_PREFIX_RE`'s `\d{4}:`: exactly four digits followed by a colon. -/
def eat4DigitsColon : List Char → Option (List Char)
  | a :: b :: c :: d :: ':' :: r =>
    if isDigitC a && isDigitC b && isDigitC c && isDigitC d then some r else none
  | _ => none

/-- `DATE_PREFIX_RE.sub("", title)` with
`DATE_PREFIX_RE = ^[A-Za-z]{3}\s+\d{1,2},\s+\d{4}:\s+` (main.py line 80):
strip a leading "Mon DD, YYYY: " style prefix if present. -/
def date_prefix_strip (s : String) : String :=
  match s.data with
  | a :: b :: c :: rest =>
    if isAlphaAZ a && isAlphaAZ b && isAlphaAZ c then
      match eatWS1 rest with
      | none => s
      | some r1 =>
        match eatDigits12Comma r1 with
        | none => s
        | some r2 =>
          match eatWS1 r2 with
          | none => s
          | some r3 =>
            match eat4DigitsColon r3 with
            | none => s
            | some r4 =>
              match eatWS1 r4 with
              | none => s
              | some r5 => ⟨r5⟩
    else s
  | _ => s

/-- `(.+)$` with `.` excluding newlines: the group is the maximal non-empty
newline-free run, and `$` accepts the end of the string or a position just
before a single trailing newline.  Returns `(group, remainder)` on match. -/
def dotPlusDollar (l : List Char) : Option (List Char × List Char) :=
  if l = [] then none
  else if l.contains '\n' then
    if l.getLast? = some '\n' ∧ ¬ l.dropLast.contains '\n' ∧ l.dropLast ≠ [] then
      some (l.dropLast, ['\n'])
    else none
  else some (l, [])

/-- The backtracking of `TRAILING_AT_RE`'s second `\s+`: try consuming `b`
whitespace characters (largest first, as the greedy engine does) such that
`(.+)$` matches the rest. -/
def tryWsDot : Nat → List Char → Option (List Char × List Char)
  | 0, _ => none
  | b + 1, afterAT =>
    match dotPlusDollar (afterAT.drop (b + 1)) with
    | some g => some g
    | none => tryWsDot b afterAT

/-- `TRAILING_AT_RE.search` + `.sub("", ...)` with
`TRAILING_AT_RE = \s+at\s+(.+)$` and `re.IGNORECASE` (main.py line 81):
returns `(text before the match ++ remainder after it, group 1)` for the
leftmost match, `none` when there is no match. -/
def trailingAtSearch : List Char → Option (List Char × List Char)
  | [] => none
  | c :: cs =>
    let step : Option (List Char × List Char) :=
      match trailingAtSearch cs with
      | some (pre, g) => some (c :: pre, g)
      | none => none
    if isPyWS c then
      let a := ((c :: cs).takeWhile isPyWS).length
      match (c :: cs).drop a with
      | x :: y :: rest2 =>
        if (x = 'a' || x = 'A') && (y = 't' || y = 'T') then
          match tryWsDot (rest2.takeWhile isPyWS).length rest2 with
          | some (g, rem) => some (rem, g)
          | none => step
        else step
      | _ => step
    else step

/-- Case-insensitive literal prefix match. -/
def ciPrefix : List Char → List Char → Bool
  | [], _ => true
  | _ :: _, [] => false
  | p :: ps, c :: cs => pyLowerChar p = pyLowerChar c && ciPrefix ps cs

/-- Is position `0` of `l` followed by a non-word character after `phrase`
(`\b` at the end of a phrase ending in a word character)? -/
def boundaryAfter (phrase l : List Char) : Bool :=
  match l.drop phrase.length with
  | [] => true
  | c :: _ => !isWordChar c

/-- `re.search(r"\bPHRASE\b", l, re.I)` for a phrase that starts and ends
with word characters: the index of the leftmost match. -/
def searchBoundCI (phrase : List Char) : Option Char → Nat → List Char → Option Nat
  | _, _, [] => none
  | prev, idx, c :: cs =>
    if (match prev with | none => true | some p => !isWordChar p) &&
        ciPrefix phrase (c :: cs) && boundaryAfter phrase (c :: cs) then
      some idx
    else searchBoundCI phrase (some c) (idx + 1) cs

/-! ## `main.py`: text helpers and the Eventbrite location extractor -/

/-- Oracles for the normalizer's external calls: BeautifulSoup's
`get_text(" ")` and `get_text("\n")` (`none` models a parser exception),
`dateutil.parser.parse` (plain and fuzzy), `tz.gettz` offsets,
`datetime.now()`, and `resolve_eventbrite_location` (a network fetch in
sources.py; `none` models an exception or no result). -/
structure NormOracles where
  bsGetTextSpace : String → Option String
  bsGetTextNL : String → Option String
  dparse : String → Option PyDateTime
  fuzzyParse : String → PyDateTime → Option PyDateTime
  gettzOff : String → Option Int
  now : PyDateTime
  resolveEB : String → Option String

/-- The `ParseOracles` view of the normalizer's oracles (`parse_when` is
called from `normalize_event`). -/
def parseOraclesOf (O : NormOracles) : ParseOracles :=
  ⟨O.fuzzyParse, O.gettzOff, O.now⟩

/-- `strip_html_to_text(html)` from main.py lines 173-183: markup to plain
text via BeautifulSoup (falling back to tag-stripping plus entity fixes on a
parser exception), then per-line whitespace collapapse/strip, dropping blank
lines, joined by newlines. -/
def strip_html_to_text (O : NormOracles) (html : String) : String :=
  if html = "" then ""
  else
    let txt := match O.bsGetTextNL html with
      | some t => t
      | none => pyReplace (pyReplace (htmlTagSub html) "&nbsp;" " ") "&amp;" "&"
    let lines := (pySplitlines txt).map (fun ln => pyStrip (wsReSub ln))
    joinSep "\n" (lines.filter (fun ln => ln ≠ ""))

/-- `EVENTBRITE_CHROME_HINTS` (main.py lines 116-119). -/
def EVENTBRITE_CHROME_HINTS : List String :=
  ["Eventbrite", "Find my tickets", "Create Events", "Help Center",
    "Contact Sales", "Community Guidelines", "Do Not Sell or Share"]

/-- The module-level `_looks_like_eventbrite_blob` (main.py lines 206-210):
very long and containing a chrome hint. -/
def looksLikeEventbriteBlobModule (s : String) : Bool :=
  s ≠ "" && decide (s.data.length > 300) &&
    EVENTBRITE_CHROME_HINTS.any (fun h => containsSub h s)

/-- The local `_looks_like_eventbrite_blob` defined inside `normalize_event`
(main.py lines 383-391): telltale chrome pairs, or longer than 300. -/
def looksLikeEventbriteBlobLocal (txt : String) : Bool :=
  txt ≠ "" &&
    ((containsSub "Eventbrite" txt && containsSub "Find my tickets" txt) ||
      (containsSub "Create Events" txt && containsSub "Help Center" txt) ||
      decide (txt.data.length > 300))

/-- `EVENTBRITE_LOC_STOP_MARKERS` (main.py lines 274-284), as plain phrases
(each regex is `\bPHRASE\b`). -/
def EVENTBRITE_LOC_STOP_MARKERS : List String :=
  ["Get directions", "Good to know", "Highlights", "About this event",
    "Tags", "Organized by", "Report this event", "Free", "Multiple dates"]

/-- `EVENTBRITE_LOC_START_RE = \bLocation\b[:\s]*` (main.py line 273): the
text after the end of the leftmost match, if any. -/
def locStartSearch (l : List Char) : Option (List Char) :=
  match searchBoundCI ("Location".data) none 0 l with
  | none => none
  | some i =>
    some ((l.drop (i + 8)).dropWhile (fun c => c = ':' || isPyWS c))

/-- The earliest stop-marker position in the text after `Location` (the
whole length when no marker occurs). -/
def ebStopMin (l : List Char) : Nat :=
  EVENTBRITE_LOC_STOP_MARKERS.foldl
    (fun acc p =>
      match searchBoundCI p.data none 0 l with
      | some i => min acc i
      | none => acc)
    l.length

/-- `[,\s]`. -/
def isCommaWS (c : Char) : Bool := c = ',' || isPyWS c

/-- `re.split(r"[,\s]{2,}", chunk)`: split at maximal comma/whitespace runs
of length at least two (fuel is the input length). -/
def splitRuns2Go : Nat → List Char → List Char → List (List Char)
  | 0, acc, _ => [acc.reverse]
  | _, acc, [] => [acc.reverse]
  | fuel + 1, acc, c :: cs =>
    if isCommaWS c then
      let run := (c :: cs).takeWhile isCommaWS
      if 2 ≤ run.length then
        acc.reverse :: splitRuns2Go fuel [] ((c :: cs).drop run.length)
      else splitRuns2Go fuel (c :: acc) cs
    else splitRuns2Go fuel (c :: acc) cs

/-- `re.split(r"[,\s]{2,}", chunk)`. -/
def splitRuns2 (s : String) : List String :=
  (splitRuns2Go s.data.length [] s.data).map (⟨·⟩)

/-- Case-insensitive de-duplication preserving first-seen order (main.py
lines 317-324). -/
def dedupCIGo (seen : List String) : List String → List String
  | [] => []
  | s :: rest =>
    if seen.contains (pyLower s) then dedupCIGo seen rest
    else s :: dedupCIGo (pyLower s :: seen) rest

/-- The trailing-noise phrases of main.py line 328. -/
def EB_TRAIL_PHRASES : List String := ["Get directions", "Good to know", "Highlights"]

/-- `.*$` (with `.` excluding newlines): accepts a tail with no newline, or
with a single trailing newline. -/
def dotStarDollar (l : List Char) : Bool :=
  !l.contains '\n' || (l.getLast? == some '\n' && !l.dropLast.contains '\n')

/-- Does `re.sub`'s pattern `(?:,?\s*(Get directions|Good to know|Highlights).*)$`
match starting at this position? -/
def ebTrailMatchAt (l : List Char) : Bool :=
  let l1 := match l with | ',' :: r => r | _ => l
  let l2 := l1.dropWhile isPyWS
  EB_TRAIL_PHRASES.any (fun p =>
    ciPrefix p.data l2 && dotStarDollar (l2.drop p.data.length))

/-- `re.sub(r"(?:,?\s*(Get directions|Good to know|Highlights).*)$", "", loc,
re.I)` (main.py line 328): truncate at the leftmost matching position
(keeping a trailing newline that `$` leaves behind, as the engine does). -/
def ebTrailSubGo (acc : List Char) : List Char → List Char
  | [] => acc.reverse
  | c :: cs =>
    if ebTrailMatchAt (c :: cs) then
      acc.reverse ++ (if (c :: cs).getLast? == some '\n' then ['\n'] else [])
    else ebTrailSubGo (c :: acc) cs

/-- The trailing-noise removal of main.py line 328. -/
def ebTrailSub (loc : String) : String := ⟨ebTrailSubGo [] loc.data⟩

/-- `_extract_eventbrite_location(big)` from main.py lines 286-329. -/
def _extract_eventbrite_location (O : NormOracles) (big : String) : String :=
  if big = "" then ""
  else
    let txt := pyStrip (wsReSub (strip_html_to_text O big))
    if ¬ (containsSub "Eventbrite" txt && containsSub "Find my tickets" txt) then ""
    else
      match locStartSearch txt.data with
      | none => ""
      | some tailL =>
        let chunk := pyStripChars ⟨tailL.take (ebStopMin tailL)⟩ [' ', '-', '–', '—', '|']
        let parts := ((splitRuns2 chunk).map pyStrip).filter (fun p => p ≠ "")
        let loc := joinSep ", " (dedupCIGo [] parts)
        pyStripChars (ebTrailSub loc) [',', ' ']

/-! ## `main.py`: the normalizer (lines 333-450) -/

/-- `clean_location_field(raw_loc)` from main.py lines 333-347: HTML to
text when markup is present, whitespace collapse, edge punctuation strip,
and discard when the module-level Eventbrite-blob test fires. -/
def clean_location_field (O : NormOracles) (raw_loc : String) : String :=
  if raw_loc = "" then ""
  else
    let s :=
      if containsSub "<" raw_loc && containsSub ">" raw_loc then
        match O.bsGetTextSpace raw_loc with
        | some t => t
        | none => htmlTagSub raw_loc
      else raw_loc
    let s := pyStripChars (wsReSub s) [' ', '-', '–', '—', '|']
    if looksLikeEventbriteBlobModule s then "" else s

/-- `_clean_title_and_location(raw_title, existing_loc)` from main.py lines
351-360: strip the leading date prefix, and when no location was supplied
peel a trailing " at <Location>" clause off the title. -/
def _clean_title_and_location (raw_title existing_loc : String) :
    String × Option String :=
  let title := pyStrip raw_title
  let title := pyStrip (date_prefix_strip title)
  let loc := pyStrip existing_loc
  if loc = "" then
    match trailingAtSearch title.data with
    | some (pre, g) =>
      let loc2 := pyStrip ⟨g⟩
      (pyStrip ⟨pre⟩, if loc2 = "" then none else some loc2)
    | none => (title, none)
  else (title, some loc)

/-- `urlsplit(u).netloc`: the authority after the optional scheme and `//`,
up to the first `/`, `?` or `#`. -/
def urlsplitNetloc (u : String) : String :=
  let cs := u.data
  let afterScheme :=
    match cs with
    | c :: rest =>
      if isAlphaAZ c then
        let run := rest.takeWhile
          (fun x => isAlphaAZ x || isDigitC x || x = '+' || x = '.' || x = '-')
        match rest.drop run.length with
        | ':' :: tail => tail
        | _ => cs
      else cs
    | [] => []
  if isPrefixB "//".data afterScheme then
    ⟨(afterScheme.drop 2).takeWhile (fun c => c != '/' && c != '?' && c != '#')⟩
  else ""

/-- `_host_from(ev)` from main.py lines 146-152: the lowercased netloc of
the link (or, when the link is empty, the source). -/
def _host_from (source link : Option String) : String :=
  let src := pyStrip (source.getD "")
  let lnk := pyStrip (link.getD "")
  pyLower (urlsplitNetloc (if lnk ≠ "" then lnk else src))

/-- A raw-event field value: adapters hand the normalizer either text or an
already-constructed `datetime`. -/
inductive RawVal where
  | str (v : String)
  | dt (v : PyDateTime)
deriving DecidableEq, Repr

/-- A raw event record (the dict an adapter produces); a missing key reads
as `none`. -/
structure RawEvent where
  title : Option String := none
  description : Option String := none
  location : Option String := none
  link : Option String := none
  start : Option RawVal := none
  endv : Option RawVal := none
  source : Option String := none
deriving DecidableEq, Repr

/-- The normalized event (`normalize_event`'s output dict). -/
structure NormEvent where
  title : String
  description : String
  location : String
  start : PyDateTime
  endt : PyDateTime
  link : Option String
  source : Option String
deriving DecidableEq, Repr

/-- `to_dt(x)` from main.py lines 419-426: parse a text timestamp via
`dateutil`, defaulting naive results to the configured time zone; `None`
and parse failures yield `None`. -/
def to_dt (O : NormOracles) (tzname : String) (x : Option String) :
    Option PyDateTime :=
  match x with
  | none => none
  | some s =>
    if s = "" then none
    else
      match O.dparse s with
      | none => none
      | some dt => some (withDefaultTz O.gettzOff tzname dt)

/-- `normalize_event(raw, timezone)` from main.py lines 364-450. -/
def normalize_event (O : NormOracles) (raw : RawEvent)
    (timezone : String := "America/New_York") : Option NormEvent :=
  let title0 := pyStrip (raw.title.getD "")
  let desc := pyStrip (raw.description.getD "")
  let loc0 := pyStrip (raw.location.getD "")
  let link := raw.link
  let cleaned := _clean_title_and_location title0 loc0
  let title := cleaned.1
  let loc := (cleaned.2).getD loc0
  let loc := clean_location_field O loc
  let host := _host_from raw.source link
  let loc :=
    if looksLikeEventbriteBlobLocal loc then
      let fixed := _extract_eventbrite_location O loc
      if fixed ≠ "" then fixed
      else
        let fixed2 := _extract_eventbrite_location O desc
        if fixed2 ≠ "" then fixed2 else loc
    else loc
  let loc :=
    if (loc = "" ∨ looksLikeEventbriteBlobLocal loc) ∧
        endsWith "eventbrite.com" host ∧ (link.getD "") ≠ "" then
      match O.resolveEB (link.getD "") with
      | some r => if r ≠ "" then r else loc
      | none => loc
    else loc
  let loc :=
    if loc = "" ∨ (containsSub "Eventbrite" loc && containsSub "Find my tickets" loc) then
      let maybe := _extract_eventbrite_location O desc
      if maybe ≠ "" then maybe else loc
    else loc
  let sdt0 := match raw.start with
    | some (.dt d) => some d
    | some (.str s) => to_dt O timezone (some s)
    | none => none
  let edt0 := match raw.endv with
    | some (.dt d) => some d
    | some (.str s) => to_dt O timezone (some s)
    | none => none
  let se :=
    match sdt0 with
    | some s => (some s, edt0)
    | none =>
      match parse_when (parseOraclesOf O)
          (some (if desc ≠ "" then desc else title)) timezone 2 with
      | (some s, e2) => (some s, if edt0 = none then e2 else edt0)
      | (none, _) => (none, edt0)
  match se.1 with
  | none => none
  | some s =>
    if title = "" then none
    else
      let e := (match se.2 with | some ev => ev | none => s.addHours 2)
      some { title := title, description := desc, location := loc,
             start := s, endt := e, link := link, source := raw.source }

/-! ### Claim C8: the end-to-end normalization scenario -/

/-- C8: normalizing `{title: "Oct 23, 2025: Trivia Night at The Tap Room",
start: "2025-10-23T19:00", location: absent}` yields title "Trivia Night",
location "The Tap Room" (peeled off the title), the start at 19:00 carrying
the configured default time zone, and the end at 21:00 (start plus the
2-hour default).  The only external fact needed is `dateutil`'s parse of the
start text. -/
theorem C8_trivia_night_scenario (O : NormOracles)
    (hp : O.dparse "2025-10-23T19:00" = some ⟨2025, 10, 23, 19, 0, 0, 0, none⟩) :
    normalize_event O
      { title := some "Oct 23, 2025: Trivia Night at The Tap Room",
        start := some (.str "2025-10-23T19:00") }
      "America/New_York" =
      some { title := "Trivia Night", description := "", location := "The Tap Room",
             start := ⟨2025, 10, 23, 19, 0, 0, 0, O.gettzOff "America/New_York"⟩,
             endt := ⟨2025, 10, 23, 21, 0, 0, 0, O.gettzOff "America/New_York"⟩,
             link := none, source := none } := by
  have hto : to_dt O "America/New_York" (some "2025-10-23T19:00") =
      some ⟨2025, 10, 23, 19, 0, 0, 0, O.gettzOff "America/New_York"⟩ := by
    simp only [to_dt]
    rw [if_neg (by decide : ¬("2025-10-23T19:00" : String) = ""), hp]
    rfl
  have key : (⟨2025, 10, 23, 19, 0, 0, 0, O.gettzOff "America/New_York"⟩ :
      PyDateTime).addHours 2 =
      ⟨2025, 10, 23, 21, 0, 0, 0, O.gettzOff "America/New_York"⟩ := by
    simp [PyDateTime.addHours, addDays]
  have step : normalize_event O
      { title := some "Oct 23, 2025: Trivia Night at The Tap Room",
        start := some (.str "2025-10-23T19:00") }
      "America/New_York" =
      some { title := "Trivia Night", description := "", location := "The Tap Room",
             start := ⟨2025, 10, 23, 19, 0, 0, 0, O.gettzOff "America/New_York"⟩,
             endt := (⟨2025, 10, 23, 19, 0, 0, 0, O.gettzOff "America/New_York"⟩ :
               PyDateTime).addHours 2,
             link := none, source := none } := by
    simp only [normalize_event]
    rw [hto]
    rfl
  rw [step, key]

/-- Concrete oracles for the C8 witness: `dateutil` answers only for the
scenario's start text; the default zone resolves to UTC-4. -/
def C8demoOracles : NormOracles where
  bsGetTextSpace := fun _ => none
  bsGetTextNL := fun _ => none
  dparse := fun s =>
    if s = "2025-10-23T19:00" then some ⟨2025, 10, 23, 19, 0, 0, 0, none⟩ else none
  fuzzyParse := fun _ _ => none
  gettzOff := fun _ => some (-240)
  now := ⟨2026, 1, 1, 0, 0, 0, 0, none⟩
  resolveEB := fun _ => none

/-- C8 witness: the scenario theorem applied at the concrete oracles. -/
theorem C8_trivia_night_scenario_witness :
    normalize_event C8demoOracles
      { title := some "Oct 23, 2025: Trivia Night at The Tap Room",
        start := some (.str "2025-10-23T19:00") }
      "America/New_York" =
      some { title := "Trivia Night", description := "", location := "The Tap Room",
             start := ⟨2025, 10, 23, 19, 0, 0, 0, some (-240)⟩,
             endt := ⟨2025, 10, 23, 21, 0, 0, 0, some (-240)⟩,
             link := none, source := none } :=
  C8_trivia_night_scenario C8demoOracles (by decide)

/-! ### Claim C1: the normalizer invariant

`normalize_event` rejects records without a title or start, so every
accepted event has a non-empty title; and when the record supplies a start
— as a `datetime` object or as a text `dateutil` parses — but no end, the
end is synthesized as `start + 2h`, which is not before a valid start.  But
an end supplied by the raw record (or recovered by the `parse_when`
free-text fallback) is passed through unvalidated, so an accepted event can
have `end < start`; and the output-window filter of main.py line 713 checks
only `end >= now - 2d` and `start <= horizon`, never comparing `end` with
`start`, so such an event also satisfies the filter for a suitable
clock. -/

/-- Microseconds in a day. -/
def usPerDay : Int := 86400000000

/-- The output-window predicate of main.py lines 712-713 (`horizon = now +
timedelta(days=keep_days)`; keep `e` when `e['end'] >= now -
timedelta(days=2) and e['start'] <= horizon`), at the instant level: at a
fixed UTC offset, shifting an aware datetime by a timedelta shifts its
instant by the same amount. -/
def windowKeep (now : PyDateTime) (keep_days : Nat) (e : NormEvent) : Prop :=
  now.epochMicro - 2 * usPerDay ≤ e.endt.epochMicro ∧
  e.start.epochMicro ≤ now.epochMicro + keep_days * usPerDay

instance (now : PyDateTime) (k : Nat) (e : NormEvent) :
    Decidable (windowKeep now k e) := by
  unfold windowKeep; exact inferInstance

/-- Concrete oracles for the C1 counterexample and witness: `dateutil`
answers only for the witness's start text; the default zone resolves to
UTC. -/
def C1demoOracles : NormOracles where
  bsGetTextSpace := fun _ => none
  bsGetTextNL := fun _ => none
  dparse := fun s =>
    if s = "2025-05-01T09:00" then some ⟨2025, 5, 1, 9, 0, 0, 0, none⟩ else none
  fuzzyParse := fun _ _ => none
  gettzOff := fun _ => some 0
  now := ⟨2026, 1, 1, 0, 0, 0, 0, none⟩
  resolveEB := fun _ => none

/-- C1 counterexample: a raw record whose supplied end precedes its start is
accepted by `normalize_event`; the resulting event violates `end >= start`,
and it passes the output-window filter (with the clock a day after the end
and a 60-day horizon) — the filter never compares `end` with `start`.  The
event's seconds and microseconds are already zero, so the
`replace(second=0, microsecond=0)` of main.py lines 684-686 leaves it
unchanged on the way to the filter. -/
theorem C1_end_before_start_counterexample :
    normalize_event C1demoOracles
      { title := some "X",
        start := some (.dt ⟨2025, 1, 2, 10, 0, 0, 0, some 0⟩),
        endv := some (.dt ⟨2025, 1, 1, 10, 0, 0, 0, some 0⟩) }
      "America/New_York" =
      some { title := "X", description := "", location := "",
             start := ⟨2025, 1, 2, 10, 0, 0, 0, some 0⟩,
             endt := ⟨2025, 1, 1, 10, 0, 0, 0, some 0⟩,
             link := none, source := none } ∧
    ¬ dtLe (⟨2025, 1, 2, 10, 0, 0, 0, some 0⟩ : PyDateTime)
        ⟨2025, 1, 1, 10, 0, 0, 0, some 0⟩ ∧
    windowKeep ⟨2025, 1, 2, 12, 0, 0, 0, some 0⟩ 60
      { title := "X", description := "", location := "",
        start := ⟨2025, 1, 2, 10, 0, 0, 0, some 0⟩,
        endt := ⟨2025, 1, 1, 10, 0, 0, 0, some 0⟩,
        link := none, source := none } :=
  ⟨by decide, by decide, by decide⟩

set_option maxHeartbeats 2000000 in
/-- C1 (amended): every accepted event has a non-empty title; and whenever
the raw record supplies a start that resolves to a datetime `d` — either a
`datetime` value, or a text that `to_dt` parses (the form this repo's
adapters emit) — and no end, the event's start is `d` and its end is the
synthesized `d + 2h`, so `end >= start` holds for valid starts.  An end
supplied by the raw record is not validated against the start. -/
theorem C1_normalize_nonempty_title_default_end (O : NormOracles)
    (raw : RawEvent) (tzname : String) (ev : NormEvent)
    (h : normalize_event O raw tzname = some ev) :
    ev.title ≠ "" ∧
    (∀ d : PyDateTime,
      (raw.start = some (.dt d) ∨
        ∃ s, raw.start = some (.str s) ∧ to_dt O tzname (some s) = some d) →
      raw.endv = none →
      ev.start = d ∧ ev.endt = d.addHours 2 ∧ (d.Valid → dtLe ev.start ev.endt)) := by
  constructor
  · simp only [normalize_event] at h
    split at h
    · exact absurd h (by simp)
    · split at h
      · exact absurd h (by simp)
      · next htitle =>
          obtain rfl := Option.some.injEq .. ▸ h
          exact htitle
  · rintro d hs he
    obtain ⟨t0, de, lo, li, st, en, so⟩ := raw
    simp only at hs he
    subst he
    rcases hs with hs | ⟨s, hs, hp⟩
    · subst hs
      simp only [normalize_event] at h
      split at h
      · exact absurd h (by simp)
      · next htitle =>
          obtain rfl := Option.some.injEq .. ▸ h
          exact ⟨rfl, rfl, fun hv => addHours_le d hv 2⟩
    · subst hs
      simp only [normalize_event, hp] at h
      split at h
      · exact absurd h (by simp)
      · next htitle =>
          obtain rfl := Option.some.injEq .. ▸ h
          exact ⟨rfl, rfl, fun hv => addHours_le d hv 2⟩

/-- C1 witness: a record whose start is the text "2025-05-01T09:00" (the
form the adapters emit) and which has no end normalizes to an event with
the synthesized end two hours after the parsed start. -/
theorem C1_normalize_nonempty_title_default_end_witness :
    ("Yoga" : String) ≠ "" ∧
    dtLe (⟨2025, 5, 1, 9, 0, 0, 0, some 0⟩ : PyDateTime)
      ⟨2025, 5, 1, 11, 0, 0, 0, some 0⟩ := by
  have h : normalize_event C1demoOracles
      { title := some "Yoga",
        start := some (.str "2025-05-01T09:00") }
      "America/New_York" =
      some { title := "Yoga", description := "", location := "",
             start := ⟨2025, 5, 1, 9, 0, 0, 0, some 0⟩,
             endt := ⟨2025, 5, 1, 11, 0, 0, 0, some 0⟩,
             link := none, source := none } := by decide
  have hc := C1_normalize_nonempty_title_default_end C1demoOracles
    { title := some "Yoga",
      start := some (.str "2025-05-01T09:00") }
    "America/New_York" _ h
  refine ⟨hc.1, ?_⟩
  have h2 := (hc.2 ⟨2025, 5, 1, 9, 0, 0, 0, some 0⟩
    (Or.inr ⟨"2025-05-01T09:00", rfl, by decide⟩) rfl).2.2 (by decide)
  exact h2

/-! ### Claim C10: adapters return no events on 304 Not Modified

The three adapter families cited by the claim — `fetch_rss` (src/sources.py
lines 783-819), `fetch_ics` (lines 822-906) and `fetch_html` (lines
1406-1491, which delegates to `fetch_freepress_calendar`, lines 932-1120,
for the Free Press source) — each call `req_with_cache` and return `[]`
as soon as its status is 304, before any parsing of the body.  The external
libraries they use afterwards (`feedparser`, `dateutil`, `urllib.parse`,
BeautifulSoup) are modelled as oracles; the adapters' own logic (guards,
the feed-entry loop, the ICS chunk/unfold/property parser, the CSS-hint
item loop with its time regex, the final title filter) is translated
below. -/

/-- Python `str.upper` on the ASCII letters (all the ICS property names and
lines compared here are ASCII). -/
def pyUpperChar (c : Char) : Char :=
  if 'a' ≤ c ∧ c ≤ 'z' then Char.ofNat (c.toNat - 32) else c

/-- Python `s.upper()`. -/
def pyUpper (s : String) : String := ⟨s.data.map pyUpperChar⟩

/-- Python `s.rstrip(chr(13))`: drop every trailing carriage return. -/
def rstripCR (s : String) : String :=
  ⟨(s.data.reverse.dropWhile (fun c => c == '\r')).reverse⟩

/-- The engine of Python `s.split(sep)` for a non-empty separator: cut at
each left-most non-overlapping occurrence.  `fuel` bounds the scan by the
text length. -/
def splitSubGo (sep : List Char) (acc : List Char) : Nat → List Char → List (List Char)
  | _, [] => [acc.reverse]
  | 0, l => [acc.reverse ++ l]
  | fuel + 1, c :: cs =>
    if isPrefixB sep (c :: cs) then
      acc.reverse :: splitSubGo sep [] fuel ((c :: cs).drop sep.length)
    else splitSubGo sep (c :: acc) fuel cs

/-- Python `s.split(sep)` (a non-empty separator). -/
def pySplitSub (s sep : String) : List String :=
  (splitSubGo sep.data [] s.data.length s.data).map (⟨·⟩)

/-- A `feedparser` entry: each field is `some` exactly when `hasattr` holds
(`getattr(e, k, "")` reads `.getD ""`). -/
structure FPEntry where
  title : Option String := none
  summary : Option String := none
  description : Option String := none
  link : Option String := none
  start_time : Option String := none
  published : Option String := none
  updated : Option String := none
  created : Option String := none
deriving DecidableEq, Repr

/-- Oracles for the adapters' external calls: `robots_allowed` (a
network-backed robots.txt check, src/sources.py lines 37-85),
`feedparser.parse(body).entries`, `dateutil`'s strict `parser.parse`
(`none` = exception), `urllib.parse.urljoin` (`none` = exception),
BeautifulSoup on the fetched page (`select` returns handles of the matched
elements; `hasTimeNode` is the `time[datetime]` probe of src/sources.py
lines 1437-1439; `elGetText` is `el.get_text(" ", strip=True)`;
`selectOneText` is `el.select_one(sel)` followed by `get_text`, `none` when
nothing matches; `docSelectOne` is `soup.select_one` on the whole page),
and the Free Press scrape stage (src/sources.py lines 950-1120: the
JSON-LD, microdata and event-card passes, which operate entirely on
`json.loads`/BeautifulSoup structures of the body, here a function of the
URL, default time zone and body). -/
structure FetchOracles where
  robots : String → String → Bool
  fpEntries : String → List FPEntry
  dparse : String → Option PyDateTime
  urljoin : String → String → Option String
  select : String → String → List Nat
  hasTimeNode : Nat → Bool
  elGetText : Nat → String
  selectOneText : Nat → String → Option String
  docSelectOne : String → String → Option Nat
  freepressScrape : String → String → String → List RawEvent

/-- Python `a or b` on strings (`""` is falsy). -/
def orFalsyStr (a b : String) : String := if a = "" then b else a

/-- Python `a or b` on optional strings (`None` and `""` are falsy). -/
def orFalsy (a b : Option String) : Option String :=
  match a with
  | some s => if s = "" then b else some s
  | none => b

/-- The date-key loop of `fetch_rss` (src/sources.py lines 799-806): try
`start_time`, `published`, `updated`, `created` in order; a missing
attribute or a parse exception moves on to the next key. -/
def rssTryKeys (O : FetchOracles) : List (Option String) → Option PyDateTime
  | [] => none
  | none :: rest => rssTryKeys O rest
  | some v :: rest =>
    match O.dparse v with
    | some d => some d
    | none => rssTryKeys O rest

/-- One feed entry's raw dict (src/sources.py lines 795-817). -/
def rssEntryEvent (O : FetchOracles) (url : String) (e : FPEntry) : RawEvent :=
  let title := pyStrip (e.title.getD "")
  let desc := orFalsyStr (e.summary.getD "") (e.description.getD "")
  let link := e.link.getD ""
  let dt := rssTryKeys O [e.start_time, e.published, e.updated, e.created]
  { title := some title, description := some desc, link := some link,
    start := dt.map (fun d => RawVal.str (isoformat d)), endv := none,
    location := none, source := some url }

/-- `fetch_rss(url, user_agent)` from src/sources.py lines 783-819, with
the body-parse stage behind the 304/error guards. -/
def fetch_rss (W : NetWorld) (O : FetchOracles) (cache : HttpCache)
    (url : String) (user_agent : String := "fxbg-event-bot/1.0") : List RawEvent :=
  if O.robots url user_agent = false then []
  else
    let r := req_with_cache W url { userAgent := some user_agent } cache
    if r.status = 304 then []
    else if r.status ≠ 200 ∨ r.body = "" then []
    else (O.fpEntries r.body).map (rssEntryEvent O url)

/-- `ics_unescape` (src/sources.py lines 829-836): the five replacements in
source order. -/
def ics_unescape (s : String) : String :=
  pyReplace (pyReplace (pyReplace (pyReplace (pyReplace
    s "\\n" "\n") "\\N" "\n") "\\," ",") "\\;" ";") "\\\\" "\\"

/-- Python `ln.split(":", 1)[1]`; a line with no colon raises `IndexError`
in the source, modelled as no value. -/
def splitColon1 (s : String) : Option String :=
  if s.data.contains ':' then some ⟨(s.data.dropWhile (fun c => c != ':')).tail⟩
  else none

/-- The line-unfolding loop of `fetch_ics` (src/sources.py lines 853-859):
a line starting with a space or tab continues the previous one (its first
character dropped, no `rstrip`); other lines are appended with trailing
carriage returns stripped.  `acc` holds the output so far, reversed. -/
def icsUnfold (acc : List String) : List String → List String
  | [] => acc.reverse
  | ln :: rest =>
    match acc, startsWithB " " ln || startsWithB "\t" ln with
    | a :: tl, true => icsUnfold ((a ++ ⟨ln.data.tail⟩) :: tl) rest
    | _, _ => icsUnfold (rstripCR ln :: acc) rest

/-- `get_prop` (src/sources.py lines 862-868): the first line whose
uppercase form starts with `NAME:` or `NAME;`, split after its first
colon. -/
def get_prop (lines : List String) (name : String) : Option String :=
  match lines.find? (fun ln =>
      startsWithB (pyUpper name ++ ":") (pyUpper ln) ||
      startsWithB (pyUpper name ++ ";") (pyUpper ln)) with
  | none => none
  | some ln => splitColon1 ln

/-- The `if title: title = ics_unescape(title.strip())` pattern applied to
SUMMARY/LOCATION/DESCRIPTION (src/sources.py lines 877-882): `None` and
`""` pass through. -/
def icsClean : Option String → Option String
  | none => none
  | some t => if t = "" then some t else some (ics_unescape (pyStrip t))

/-- `parse_ics_dt` (src/sources.py lines 838-845): drop every `Z`, then
`dateutil` (`none` = exception or missing/empty input). -/
def parse_ics_dt (O : FetchOracles) : Option String → Option PyDateTime
  | none => none
  | some s => if s = "" then none else O.dparse (pyReplace s "Z" "")

/-- One VEVENT chunk's raw dict (src/sources.py lines 849-904). -/
def icsChunkEvent (O : FetchOracles) (url : String) (chunk : String) : RawEvent :=
  let block := (pySplitSub chunk "END:VEVENT").headD chunk
  let lines := (icsUnfold [] (pySplitlines block)).filter (fun ln => pyStrip ln ≠ "")
  let title := icsClean (get_prop lines "SUMMARY")
  let loc := icsClean (get_prop lines "LOCATION")
  let dtstart := get_prop lines "DTSTART"
  let dtend := get_prop lines "DTEND"
  let desc := icsClean (get_prop lines "DESCRIPTION")
  let url_prop := get_prop lines "URL"
  let sdt := parse_ics_dt O dtstart
  let edt := parse_ics_dt O dtend
  let link : Option String :=
    match url_prop with
    | none => none
    | some u =>
      if u = "" then none
      else
        match O.urljoin url (pyStrip u) with
        | some j => some j
        | none => some (pyStrip u)
  { title := title, description := desc, link := link,
    start := sdt.map (fun d => RawVal.str (isoformat d)),
    endv := edt.map (fun d => RawVal.str (isoformat d)),
    location := loc, source := some url }

/-- `fetch_ics(url, user_agent)` from src/sources.py lines 822-906: the
single combined guard `status == 304 or status != 200 or not body`, then
one raw dict per `BEGIN:VEVENT` chunk. -/
def fetch_ics (W : NetWorld) (O : FetchOracles) (cache : HttpCache)
    (url : String) (user_agent : String := "fxbg-event-bot/1.0") : List RawEvent :=
  if O.robots url user_agent = false then []
  else
    let r := req_with_cache W url { userAgent := some user_agent } cache
    if r.status = 304 ∨ r.status ≠ 200 ∨ r.body = "" then []
    else (pySplitSub r.body "BEGIN:VEVENT").tail.map (icsChunkEvent O url)

/-- The rests reachable by `\d{1,2}` (one or two digits). -/
def eatDigits12 (l : List Char) : List (List Char) :=
  match l with
  | c1 :: rest =>
    if isDigitC c1 then
      match rest with
      | c2 :: rest2 => if isDigitC c2 then [rest, rest2] else [rest]
      | [] => [rest]
    else []
  | [] => []

/-- The rests reachable by the optional `(:\d{2})` group. -/
def optColonRests (l : List Char) : List (List Char) :=
  match l with
  | c :: d1 :: d2 :: r =>
    if c == ':' && isDigitC d1 && isDigitC d2 then [l, r] else [l]
  | _ => [l]

/-- A `\b` between a last consumed character (word or not) and the rest. -/
def altBoundary (lastWord : Bool) (rest : List Char) : Bool :=
  match rest with
  | [] => lastWord
  | c :: _ => lastWord != isWordChar c

/-- One am/pm alternative followed by `\b`. -/
def ampmOne (alt : List Char) (lastWord : Bool) (l : List Char) : Bool :=
  isPrefixB alt l && altBoundary lastWord (l.drop alt.length)

/-- The alternation `(a\.m\.|am|p\.m\.|pm)\b` (the text is already
lowercased). -/
def ampmAltAt (l : List Char) : Bool :=
  ampmOne ['a', '.', 'm', '.'] false l || ampmOne ['a', 'm'] true l ||
  ampmOne ['p', '.', 'm', '.'] false l || ampmOne ['p', 'm'] true l

/-- A match of `\b\d{1,2}(:\d{2})?\s*(a\.m\.|am|p\.m\.|pm)\b` starting
here (`prev` is the character before, for the leading `\b`). -/
def timeMatchAt (prev : Option Char) (l : List Char) : Bool :=
  (match prev with | none => true | some p => !isWordChar p) &&
  (eatDigits12 l).any (fun r1 =>
    (optColonRests r1).any (fun r2 => ampmAltAt (r2.dropWhile isPyWS)))

/-- Scan for a match anywhere (the existence semantics of `re.search`). -/
def looksTimeGo (prev : Option Char) : List Char → Bool
  | [] => false
  | c :: rest => timeMatchAt prev (c :: rest) || looksTimeGo (some c) rest

/-- `bool(re.search(r"\b\d{1,2}(:\d{2})?\s*(a\.m\.|am|p\.m\.|pm)\b", text))`
(src/sources.py lines 1441-1443). -/
def looks_time (s : String) : Bool := looksTimeGo none s.data

/-- The CSS-selector hints dict of `fetch_html`; `timeHint` and
`parserHint` stand for the `time` and `parser` keys. -/
structure HtmlHints where
  item : Option String := none
  title : Option String := none
  date : Option String := none
  timeHint : Option String := none
  location : Option String := none
  description : Option String := none
  parserHint : Option String := none
  timezone : Option String := none
deriving DecidableEq, Repr

/-- `pick(sel)` (src/sources.py lines 1447-1451): a falsy selector yields
`None`, otherwise the text of the first match under the item. -/
def htmlPick (O : FetchOracles) (el : Nat) (sel : Option String) : Option String :=
  match sel with
  | none => none
  | some s => if s = "" then none else O.selectOneText el s

/-- One iteration of the item loop (src/sources.py lines 1436-1468):
`none` is the `continue` of line 1445 (no `time[datetime]` node and no
am/pm time in the text); otherwise the raw dict is appended even when the
title is missing. -/
def fetchHtmlItem (O : FetchOracles) (P : ParseOracles) (css : HtmlHints)
    (url : String) (el : Nat) : Option RawEvent :=
  let time_node := O.hasTimeNode el
  let maybe_text := pyLower (O.elGetText el)
  if time_node = false ∧ looks_time maybe_text = false then none
  else
    let title := htmlPick O el css.title
    let date_text := orFalsy (htmlPick O el css.date) (htmlPick O el css.timeHint)
    let loc := htmlPick O el css.location
    let desc := htmlPick O el css.description
    let se := parse_when P date_text
    some { title := title, description := desc, link := none,
           start := se.1.map (fun d => RawVal.str (isoformat d)),
           endv := se.2.map (fun d => RawVal.str (isoformat d)),
           location := loc, source := some url }

/-- The body-parse stage of `fetch_html` (src/sources.py lines 1431-1491):
the item loop, the single-event fallback when it produced nothing, and the
final filter keeping only truthy titles. -/
def htmlScrape (O : FetchOracles) (P : ParseOracles) (css : HtmlHints)
    (url body : String) : List RawEvent :=
  let items := match css.item with
    | none => []
    | some s => if s = "" then [] else O.select body s
  let out := items.filterMap (fetchHtmlItem O P css url)
  let out2 :=
    if out.isEmpty then
      match O.docSelectOne body "h1, h2, .title" with
      | none => []
      | some t =>
        let d := O.docSelectOne body "time, .date, p"
        let se := parse_when P (d.map (fun e => O.elGetText e))
        [{ title := some (O.elGetText t),
           description := some (match O.docSelectOne body "body" with
             | some b => strTake (O.elGetText b) 500
             | none => ""),
           link := some url,
           start := se.1.map (fun x => RawVal.str (isoformat x)),
           endv := se.2.map (fun x => RawVal.str (isoformat x)),
           location := none, source := some url }]
    else out
  out2.filter (fun e => match e.title with | none => false | some t => t != "")

/-- `fetch_freepress_calendar(url, default_tz)` from src/sources.py lines
932-1120: its own fixed User-Agent, no robots check, `[]` on 304 and on any
non-200 status; the three scrape passes over the body are the
`freepressScrape` oracle. -/
def fetch_freepress_calendar (W : NetWorld) (O : FetchOracles) (cache : HttpCache)
    (url : String) (default_tz : String := "America/New_York") : List RawEvent :=
  let r := req_with_cache W url
    { userAgent := some "fxbg-event-feeds/1.0 (+github.com/caymran/fxbg-event-feeds)" }
    cache (2, 5)
  if r.status = 304 then []
  else if r.status ≠ 200 then []
  else O.freepressScrape url default_tz r.body

/-- `fetch_html(url, hints, user_agent, throttle)` from src/sources.py
lines 1406-1491: robots guard, the Free Press delegation (URL substring or
`parser` hint), then the 304/error guards in front of the scrape stage. -/
def fetch_html (W : NetWorld) (O : FetchOracles) (P : ParseOracles) (cache : HttpCache)
    (url : String) (hints : HtmlHints := {})
    (user_agent : String := "fxbg-event-bot/1.0")
    (throttle : Nat × Nat := (2, 5)) : List RawEvent :=
  if O.robots url user_agent = false then []
  else if containsSub "fredericksburgfreepress" url ∨
      pyLower (hints.parserHint.getD "") = "freepress" then
    fetch_freepress_calendar W O cache url (hints.timezone.getD "America/New_York")
  else
    let r := req_with_cache W url { userAgent := some user_agent } cache throttle
    if r.status = 304 then []
    else if r.status ≠ 200 ∨ r.body = "" then []
    else htmlScrape O P hints url r.body

/-- C10: whenever an adapter's `req_with_cache` call answers 304 Not
Modified, the adapter returns the empty event list — for `fetch_rss` and
`fetch_ics` under their `User-Agent` header, for
`fetch_freepress_calendar` under its fixed header, and for `fetch_html` in
both branches (given 304 for the generic request and for the Free Press
one it may delegate to).  The conclusion holds for every parse-stage
behavior (the oracles `O` and `P` are arbitrary): the cached body handed
back on 304 is never parsed. -/
theorem C10_adapters_304_empty (W : NetWorld) (O : FetchOracles) (P : ParseOracles)
    (cache : HttpCache) (url ua tzname : String) (hints : HtmlHints)
    (throttle : Nat × Nat) :
    ((req_with_cache W url { userAgent := some ua } cache).status = 304 →
      fetch_rss W O cache url ua = [] ∧ fetch_ics W O cache url ua = []) ∧
    ((req_with_cache W url
        { userAgent := some "fxbg-event-feeds/1.0 (+github.com/caymran/fxbg-event-feeds)" }
        cache (2, 5)).status = 304 →
      fetch_freepress_calendar W O cache url tzname = []) ∧
    ((req_with_cache W url { userAgent := some ua } cache throttle).status = 304 →
      (req_with_cache W url
        { userAgent := some "fxbg-event-feeds/1.0 (+github.com/caymran/fxbg-event-feeds)" }
        cache (2, 5)).status = 304 →
      fetch_html W O P cache url hints ua throttle = []) := by
  refine ⟨fun h => ⟨?_, ?_⟩, fun h => ?_, fun h h2 => ?_⟩
  · unfold fetch_rss
    split
    · rfl
    · simp [h]
  · unfold fetch_ics
    split
    · rfl
    · simp [h]
  · unfold fetch_freepress_calendar
    simp [h]
  · unfold fetch_html
    split
    · rfl
    · split
      · unfold fetch_freepress_calendar
        simp [h2]
      · simp [h]

/-- A world whose network answers 304 to every attempt. -/
def W304demo : NetWorld where
  net := fun _ _ => .resp 304 "" none none
  timeNow := 0
  rand := 0
  dataDecode := fun _ _ => none

/-- Concrete adapter oracles whose parse stages all produce events, so the
empty results below come from the 304 guards, not from empty parses. -/
def O10demo : FetchOracles where
  robots := fun _ _ => true
  fpEntries := fun _ => [{ title := some "Feed event" }]
  dparse := fun _ => none
  urljoin := fun _ _ => none
  select := fun _ _ => [0]
  hasTimeNode := fun _ => true
  elGetText := fun _ => "Card"
  selectOneText := fun _ _ => some "Card"
  docSelectOne := fun _ _ => some 0
  freepressScrape := fun _ _ _ => [{ title := some "Free Press event" }]

/-- Concrete `parse_when` oracles for the C10 witness. -/
def P10demo : ParseOracles where
  fuzzyParse := fun _ _ => none
  gettzOff := fun _ => none
  now := ⟨2026, 1, 1, 0, 0, 0, 0, none⟩

/-- C10 witness: with an empty cache and a network answering 304, every
adapter returns no events. -/
theorem C10_adapters_304_empty_witness :
    (req_with_cache W304demo "https://example.org/feed"
      { userAgent := some "fxbg-event-bot/1.0" } []).status = 304 ∧
    (req_with_cache W304demo "https://example.org/feed"
      { userAgent := some "fxbg-event-feeds/1.0 (+github.com/caymran/fxbg-event-feeds)" }
      [] (2, 5)).status = 304 ∧
    fetch_rss W304demo O10demo [] "https://example.org/feed" = [] ∧
    fetch_ics W304demo O10demo [] "https://example.org/feed" = [] ∧
    fetch_freepress_calendar W304demo O10demo [] "https://example.org/feed"
      "America/New_York" = [] ∧
    fetch_html W304demo O10demo P10demo [] "https://example.org/feed" {}
      "fxbg-event-bot/1.0" (2, 5) = [] := by
  have h1 : (req_with_cache W304demo "https://example.org/feed"
      { userAgent := some "fxbg-event-bot/1.0" } []).status = 304 := by decide
  have h2 : (req_with_cache W304demo "https://example.org/feed"
      { userAgent := some "fxbg-event-feeds/1.0 (+github.com/caymran/fxbg-event-feeds)" }
      [] (2, 5)).status = 304 := by decide
  have T := C10_adapters_304_empty W304demo O10demo P10demo []
    "https://example.org/feed" "fxbg-event-bot/1.0" "America/New_York" {} (2, 5)
  exact ⟨h1, h2, (T.1 h1).1, (T.1 h1).2, T.2.1 h2, T.2.2 h1 h2⟩

end FXBG
